import Mathlib

/-!
# The dbscheme catalog of `extractor/dbscheme/tables.go`

`tables.go` is a sequence of package-level variable declarations.  Each
initialiser calls one constructor of the dbscheme engine (`NewUnionType`,
`NewPrimaryKeyType`, `NewAliasType`, `NewCaseType`, `NewBranch`, `NewTable`,
`AddDefaultSnippet`) and refers to earlier results through Go variables.

The catalog is embedded as the list of these declarations in file order, with
every reference kept as the name of the Go variable it mentions.  The engine
behind the constructors is not part of `tables.go`; it is modelled after the
written specification and kept apart from the transcription of the catalog.
-/

namespace Dbscheme

/-! ## Declarations of `tables.go` -/

/-- Type annotation of a column: `EntityColumn(T, _)` refers to the Go variable
`T`; `IntColumn` and `StringColumn` are scalar. -/
inductive ColumnType where
  | entity (typeVar : String)
  | int
  | string
  deriving DecidableEq, Repr

/-- Column of a table as written in an argument of `NewTable`. -/
structure Column where
  columnType : ColumnType
  columnName : String
  key : Bool
  unique : Bool
  deriving DecidableEq, Repr

/-- Constructor call `EntityColumn(T, name)`. -/
def EntityColumn (typeVar name : String) : Column := ⟨.entity typeVar, name, false, false⟩

/-- Constructor call `IntColumn(name)`. -/
def IntColumn (name : String) : Column := ⟨.int, name, false, false⟩

/-- Constructor call `StringColumn(name)`. -/
def StringColumn (name : String) : Column := ⟨.string, name, false, false⟩

/-- Modifier call `.Key()`. -/
def Column.Key (c : Column) : Column := { c with key := true }

/-- Modifier call `.Unique()`. -/
def Column.Unique (c : Column) : Column := { c with unique := true }

/-- Call `C.NewBranch(name, parents...)` on the case type held by variable `C`. -/
structure BranchCall where
  caseVar : String
  name : String
  parents : List String
  deriving DecidableEq, Repr

/-- One package-level `var` declaration of `tables.go`.  The first field is the
declared Go variable; type arguments are Go variable names. -/
inductive Decl where
  | snippet (v : String) (text : String)
  | unionType (v : String) (name : String) (parents : List String)
  | primaryKeyType (v : String) (name : String) (parents : List String)
  | aliasType (v : String) (name : String) (target : String)
  | caseType (v : String) (base : String) (column : String)
  | branch (v : String) (call : BranchCall)
  | branchMap (v : String) (entries : List (String × BranchCall))
  | table (v : String) (name : String) (columns : List Column) (keysets : List (List String))
  deriving Repr

/-- Text passed to `AddDefaultSnippet`. -/
def defaultSnippetText : String :=
  "\n/** Duplicate code **/\n\nduplicateCode(\n  unique int id : @duplication,\n  varchar(900) relativePath : string ref,\n  int equivClass : int ref);\n\nsimilarCode(\n  unique int id : @similarity,\n  varchar(900) relativePath : string ref,\n  int equivClass : int ref);\n\n@duplication_or_similarity = @duplication | @similarity;\n\ntokens(\n  int id : @duplication_or_similarity ref,\n  int offset : int ref,\n  int beginLine : int ref,\n  int beginColumn : int ref,\n  int endLine : int ref,\n  int endColumn : int ref);\n\n/** External data **/\n\nexternalData(\n  int id : @externalDataElement,\n  varchar(900) path : string ref,\n  int column: int ref,\n  varchar(900) value : string ref\n);\n\nsnapshotDate(unique date snapshotDate : date ref);\n\nsourceLocationPrefix(varchar(900) prefix : string ref);\n"

/-! ## The catalog, in file order -/

def latticeCore : List Decl := [
  .unionType "ContainerType" "@container" [],
  .unionType "LocatableType" "@locatable" [],
  .unionType "NodeType" "@node" ["LocatableType"],
  .unionType "DocumentableType" "@documentable" ["NodeType"],
  .unionType "ExprParentType" "@exprparent" ["NodeType"],
  .unionType "FieldParentType" "@fieldparent" ["NodeType"],
  .unionType "StmtParentType" "@stmtparent" ["NodeType"],
  .unionType "DeclParentType" "@declparent" ["NodeType"],
  .unionType "FuncDefType" "@funcdef" ["StmtParentType", "ExprParentType"],
  .unionType "ScopeNodeType" "@scopenode" ["NodeType"],
  .primaryKeyType "LocationDefaultType" "@location_default" [],
  .primaryKeyType "FileType" "@file" ["ContainerType", "DocumentableType", "ExprParentType", "DeclParentType", "ScopeNodeType"],
  .primaryKeyType "FolderType" "@folder" ["ContainerType"],
  .primaryKeyType "CommentGroupType" "@comment_group" ["NodeType"],
  .primaryKeyType "CommentType" "@comment" ["NodeType"],
  .primaryKeyType "ExprType" "@expr" ["ExprParentType"],
  .primaryKeyType "FieldType" "@field" ["DocumentableType", "ExprParentType"],
  .primaryKeyType "StmtType" "@stmt" ["ExprParentType", "StmtParentType"],
  .primaryKeyType "DeclType" "@decl" ["ExprParentType", "StmtParentType", "FieldParentType"],
  .primaryKeyType "SpecType" "@spec" ["ExprParentType", "DocumentableType"],
  .primaryKeyType "TypeType" "@type" [],
  .aliasType "LocationType" "@location" "LocationDefaultType",
  .aliasType "SourceLineType" "@sourceline" "LocatableType",
  .caseType "CommentKind" "CommentType" "kind",
  .branch "SlashSlashComment" ⟨"CommentKind", "@slashslashcomment", []⟩,
  .branch "SlashStarComment" ⟨"CommentKind", "@slashstarcomment", []⟩]

def exprTypes : List Decl := [
  .caseType "ExprKind" "ExprType" "kind",
  .branch "BadExpr" ⟨"ExprKind", "@badexpr", []⟩,
  .branch "IdentExpr" ⟨"ExprKind", "@ident", []⟩,
  .branch "EllipsisExpr" ⟨"ExprKind", "@ellipsis", []⟩,
  .unionType "BasicLitExpr" "@basiclit" [],
  .branch "IntLitExpr" ⟨"ExprKind", "@intlit", ["BasicLitExpr"]⟩,
  .branch "FloatLitExpr" ⟨"ExprKind", "@floatlit", ["BasicLitExpr"]⟩,
  .branch "ImagLitExpr" ⟨"ExprKind", "@imaglit", ["BasicLitExpr"]⟩,
  .branch "CharLitExpr" ⟨"ExprKind", "@charlit", ["BasicLitExpr"]⟩,
  .branch "StringLitExpr" ⟨"ExprKind", "@stringlit", ["BasicLitExpr"]⟩,
  .branch "FuncLitExpr" ⟨"ExprKind", "@funclit", ["FuncDefType"]⟩,
  .branch "CompositeLitExpr" ⟨"ExprKind", "@compositelit", []⟩,
  .branch "ParenExpr" ⟨"ExprKind", "@parenexpr", []⟩,
  .branch "SelectorExpr" ⟨"ExprKind", "@selectorexpr", []⟩,
  .branch "IndexExpr" ⟨"ExprKind", "@indexexpr", []⟩,
  .branch "SliceExpr" ⟨"ExprKind", "@sliceexpr", []⟩,
  .branch "TypeAssertExpr" ⟨"ExprKind", "@typeassertexpr", []⟩,
  .branch "CallOrConversionExpr" ⟨"ExprKind", "@callorconversionexpr", []⟩,
  .branch "StarExpr" ⟨"ExprKind", "@starexpr", []⟩,
  .unionType "OperatorExpr" "@operatorexpr" [],
  .unionType "LogicalExpr" "@logicalexpr" ["OperatorExpr"],
  .unionType "ArithmeticExpr" "@arithmeticexpr" ["OperatorExpr"],
  .unionType "BitwiseExpr" "@bitwiseexpr" ["OperatorExpr"],
  .unionType "UnaryExpr" "@unaryexpr" ["OperatorExpr"],
  .unionType "LogicalUnaryExpr" "@logicalunaryexpr" ["UnaryExpr", "LogicalExpr"],
  .unionType "BitwiseUnaryExpr" "@bitwiseunaryexpr" ["UnaryExpr", "BitwiseExpr"],
  .unionType "ArithmeticUnaryExpr" "@arithmeticunaryexpr" ["UnaryExpr", "ArithmeticExpr"],
  .unionType "BinaryExpr" "@binaryexpr" ["OperatorExpr"],
  .unionType "LogicalBinaryExpr" "@logicalbinaryexpr" ["BinaryExpr", "LogicalExpr"],
  .unionType "BitwiseBinaryExpr" "@bitwisebinaryexpr" ["BinaryExpr", "BitwiseExpr"],
  .unionType "ArithmeticBinaryExpr" "@arithmeticbinaryexpr" ["BinaryExpr", "ArithmeticExpr"],
  .unionType "ShiftExpr" "@shiftexpr" ["BitwiseBinaryExpr"],
  .unionType "Comparison" "@comparison" ["BinaryExpr"],
  .unionType "EqualityTest" "@equalitytest" ["Comparison"],
  .unionType "RelationalComparison" "@relationalcomparison" ["Comparison"],
  .branch "KeyValueExpr" ⟨"ExprKind", "@keyvalueexpr", []⟩,
  .branch "ArrayTypeExpr" ⟨"ExprKind", "@arraytypeexpr", []⟩,
  .branch "StructTypeExpr" ⟨"ExprKind", "@structtypeexpr", ["FieldParentType"]⟩,
  .branch "FuncTypeExpr" ⟨"ExprKind", "@functypeexpr", ["FieldParentType", "ScopeNodeType"]⟩,
  .branch "InterfaceTypeExpr" ⟨"ExprKind", "@interfacetypeexpr", ["FieldParentType"]⟩,
  .branch "MapTypeExpr" ⟨"ExprKind", "@maptypeexpr", []⟩,
  .unionType "ChanTypeExpr" "@chantypeexpr" [],
  .branchMap "UnaryExprs" [
    ("token.ADD", ⟨"ExprKind", "@plusexpr", ["ArithmeticUnaryExpr"]⟩),
    ("token.SUB", ⟨"ExprKind", "@minusexpr", ["ArithmeticUnaryExpr"]⟩),
    ("token.NOT", ⟨"ExprKind", "@notexpr", ["LogicalUnaryExpr"]⟩),
    ("token.XOR", ⟨"ExprKind", "@complementexpr", ["BitwiseUnaryExpr"]⟩),
    ("token.MUL", ⟨"ExprKind", "@derefexpr", ["UnaryExpr"]⟩),
    ("token.AND", ⟨"ExprKind", "@addressexpr", ["UnaryExpr"]⟩),
    ("token.ARROW", ⟨"ExprKind", "@arrowexpr", ["UnaryExpr"]⟩)],
  .branchMap "BinaryExprs" [
    ("token.LOR", ⟨"ExprKind", "@lorexpr", ["LogicalBinaryExpr"]⟩),
    ("token.LAND", ⟨"ExprKind", "@landexpr", ["LogicalBinaryExpr"]⟩),
    ("token.EQL", ⟨"ExprKind", "@eqlexpr", ["EqualityTest"]⟩),
    ("token.NEQ", ⟨"ExprKind", "@neqexpr", ["EqualityTest"]⟩),
    ("token.LSS", ⟨"ExprKind", "@lssexpr", ["RelationalComparison"]⟩),
    ("token.LEQ", ⟨"ExprKind", "@leqexpr", ["RelationalComparison"]⟩),
    ("token.GTR", ⟨"ExprKind", "@gtrexpr", ["RelationalComparison"]⟩),
    ("token.GEQ", ⟨"ExprKind", "@geqexpr", ["RelationalComparison"]⟩),
    ("token.ADD", ⟨"ExprKind", "@addexpr", ["ArithmeticBinaryExpr"]⟩),
    ("token.SUB", ⟨"ExprKind", "@subexpr", ["ArithmeticBinaryExpr"]⟩),
    ("token.OR", ⟨"ExprKind", "@orexpr", ["BitwiseBinaryExpr"]⟩),
    ("token.XOR", ⟨"ExprKind", "@xorexpr", ["BitwiseBinaryExpr"]⟩),
    ("token.MUL", ⟨"ExprKind", "@mulexpr", ["ArithmeticBinaryExpr"]⟩),
    ("token.QUO", ⟨"ExprKind", "@quoexpr", ["ArithmeticBinaryExpr"]⟩),
    ("token.REM", ⟨"ExprKind", "@remexpr", ["ArithmeticBinaryExpr"]⟩),
    ("token.SHL", ⟨"ExprKind", "@shlexpr", ["ShiftExpr"]⟩),
    ("token.SHR", ⟨"ExprKind", "@shrexpr", ["ShiftExpr"]⟩),
    ("token.AND", ⟨"ExprKind", "@andexpr", ["BitwiseBinaryExpr"]⟩),
    ("token.AND_NOT", ⟨"ExprKind", "@andnotexpr", ["BitwiseBinaryExpr"]⟩)],
  .branchMap "ChanTypeExprs" [
    ("ast.SEND", ⟨"ExprKind", "@sendchantypeexpr", ["ChanTypeExpr"]⟩),
    ("ast.RECV", ⟨"ExprKind", "@recvchantypeexpr", ["ChanTypeExpr"]⟩),
    ("ast.SEND | ast.RECV", ⟨"ExprKind", "@sendrcvchantypeexpr", ["ChanTypeExpr"]⟩)]]

def stmtTypes : List Decl := [
  .caseType "StmtKind" "StmtType" "kind",
  .branch "BadStmtType" ⟨"StmtKind", "@badstmt", []⟩,
  .branch "DeclStmtType" ⟨"StmtKind", "@declstmt", ["DeclParentType"]⟩,
  .branch "EmptyStmtType" ⟨"StmtKind", "@emptystmt", []⟩,
  .branch "LabeledStmtType" ⟨"StmtKind", "@labeledstmt", []⟩,
  .branch "ExprStmtType" ⟨"StmtKind", "@exprstmt", []⟩,
  .branch "SendStmtType" ⟨"StmtKind", "@sendstmt", []⟩,
  .unionType "IncDecStmtType" "@incdecstmt" [],
  .branch "IncStmtType" ⟨"StmtKind", "@incstmt", ["IncDecStmtType"]⟩,
  .branch "DecStmtType" ⟨"StmtKind", "@decstmt", ["IncDecStmtType"]⟩,
  .unionType "AssignmentType" "@assignment" [],
  .unionType "SimpleAssignStmtType" "@simpleassignstmt" ["AssignmentType"],
  .unionType "CompoundAssignStmtType" "@compoundassignstmt" ["AssignmentType"],
  .branch "GoStmtType" ⟨"StmtKind", "@gostmt", []⟩,
  .branch "DeferStmtType" ⟨"StmtKind", "@deferstmt", []⟩,
  .branch "ReturnStmtType" ⟨"StmtKind", "@returnstmt", []⟩,
  .unionType "BranchStmtType" "@branchstmt" [],
  .branch "BreakStmtType" ⟨"StmtKind", "@breakstmt", ["BranchStmtType"]⟩,
  .branch "ContinueStmtType" ⟨"StmtKind", "@continuestmt", ["BranchStmtType"]⟩,
  .branch "GotoStmtType" ⟨"StmtKind", "@gotostmt", ["BranchStmtType"]⟩,
  .branch "FallthroughStmtType" ⟨"StmtKind", "@fallthroughstmt", ["BranchStmtType"]⟩,
  .branch "BlockStmtType" ⟨"StmtKind", "@blockstmt", ["ScopeNodeType"]⟩,
  .branch "IfStmtType" ⟨"StmtKind", "@ifstmt", ["ScopeNodeType"]⟩,
  .branch "CaseClauseType" ⟨"StmtKind", "@caseclause", ["ScopeNodeType"]⟩,
  .unionType "SwitchStmtType" "@switchstmt" ["ScopeNodeType"],
  .branch "ExprSwitchStmtType" ⟨"StmtKind", "@exprswitchstmt", ["SwitchStmtType"]⟩,
  .branch "TypeSwitchStmtType" ⟨"StmtKind", "@typeswitchstmt", ["SwitchStmtType"]⟩,
  .branch "CommClauseType" ⟨"StmtKind", "@commclause", ["ScopeNodeType"]⟩,
  .branch "SelectStmtType" ⟨"StmtKind", "@selectstmt", []⟩,
  .unionType "LoopStmtType" "@loopstmt" ["ScopeNodeType"],
  .branch "ForStmtType" ⟨"StmtKind", "@forstmt", ["LoopStmtType"]⟩,
  .branch "RangeStmtType" ⟨"StmtKind", "@rangestmt", ["LoopStmtType"]⟩,
  .branchMap "AssignStmtTypes" [
    ("token.ASSIGN", ⟨"StmtKind", "@assignstmt", ["SimpleAssignStmtType"]⟩),
    ("token.DEFINE", ⟨"StmtKind", "@definestmt", ["SimpleAssignStmtType"]⟩),
    ("token.ADD_ASSIGN", ⟨"StmtKind", "@addassignstmt", ["CompoundAssignStmtType"]⟩),
    ("token.SUB_ASSIGN", ⟨"StmtKind", "@subassignstmt", ["CompoundAssignStmtType"]⟩),
    ("token.MUL_ASSIGN", ⟨"StmtKind", "@mulassignstmt", ["CompoundAssignStmtType"]⟩),
    ("token.QUO_ASSIGN", ⟨"StmtKind", "@quoassignstmt", ["CompoundAssignStmtType"]⟩),
    ("token.REM_ASSIGN", ⟨"StmtKind", "@remassignstmt", ["CompoundAssignStmtType"]⟩),
    ("token.AND_ASSIGN", ⟨"StmtKind", "@andassignstmt", ["CompoundAssignStmtType"]⟩),
    ("token.OR_ASSIGN", ⟨"StmtKind", "@orassignstmt", ["CompoundAssignStmtType"]⟩),
    ("token.XOR_ASSIGN", ⟨"StmtKind", "@xorassignstmt", ["CompoundAssignStmtType"]⟩),
    ("token.SHL_ASSIGN", ⟨"StmtKind", "@shlassignstmt", ["CompoundAssignStmtType"]⟩),
    ("token.SHR_ASSIGN", ⟨"StmtKind", "@shrassignstmt", ["CompoundAssignStmtType"]⟩),
    ("token.AND_NOT_ASSIGN", ⟨"StmtKind", "@andnotassignstmt", ["CompoundAssignStmtType"]⟩)]]

def declObjectTypes : List Decl := [
  .caseType "DeclKind" "DeclType" "kind",
  .branch "BadDeclType" ⟨"DeclKind", "@baddecl", []⟩,
  .unionType "GenDeclType" "@gendecl" ["DocumentableType"],
  .branch "ImportDeclType" ⟨"DeclKind", "@importdecl", ["GenDeclType"]⟩,
  .branch "ConstDeclType" ⟨"DeclKind", "@constdecl", ["GenDeclType"]⟩,
  .branch "TypeDeclType" ⟨"DeclKind", "@typedecl", ["GenDeclType"]⟩,
  .branch "VarDeclType" ⟨"DeclKind", "@vardecl", ["GenDeclType"]⟩,
  .branch "FuncDeclType" ⟨"DeclKind", "@funcdecl", ["DocumentableType", "FuncDefType"]⟩,
  .caseType "SpecKind" "SpecType" "kind",
  .branch "ImportSpecType" ⟨"SpecKind", "@importspec", []⟩,
  .branch "ValueSpecType" ⟨"SpecKind", "@valuespec", []⟩,
  .branch "TypeSpecType" ⟨"SpecKind", "@typespec", []⟩,
  .primaryKeyType "ObjectType" "@object" [],
  .caseType "ObjectKind" "ObjectType" "kind",
  .unionType "DeclObjectType" "@declobject" [],
  .unionType "BuiltinObjectType" "@builtinobject" [],
  .branch "PkgObjectType" ⟨"ObjectKind", "@pkgobject", []⟩,
  .unionType "TypeObjectType" "@typeobject" [],
  .branch "DeclTypeObjectType" ⟨"ObjectKind", "@decltypeobject", ["TypeObjectType", "DeclObjectType"]⟩,
  .branch "BuiltinTypeObjectType" ⟨"ObjectKind", "@builtintypeobject", ["TypeObjectType", "BuiltinObjectType"]⟩,
  .unionType "ValueObjectType" "@valueobject" [],
  .unionType "ConstObjectType" "@constobject" ["ValueObjectType"],
  .branch "DeclConstObjectType" ⟨"ObjectKind", "@declconstobject", ["ConstObjectType", "DeclObjectType"]⟩,
  .branch "BuiltinConstObjectType" ⟨"ObjectKind", "@builtinconstobject", ["ConstObjectType", "BuiltinObjectType"]⟩,
  .unionType "VarObjectType" "@varobject" ["ValueObjectType"],
  .branch "DeclVarObjectType" ⟨"ObjectKind", "@declvarobject", ["VarObjectType", "DeclObjectType"]⟩,
  .unionType "FunctionObjectType" "@functionobject" ["ValueObjectType"],
  .branch "DeclFuncObjectType" ⟨"ObjectKind", "@declfunctionobject", ["FunctionObjectType", "DeclObjectType"]⟩,
  .branch "BuiltinFuncObjectType" ⟨"ObjectKind", "@builtinfunctionobject", ["FunctionObjectType", "BuiltinObjectType"]⟩,
  .branch "LabelObjectType" ⟨"ObjectKind", "@labelobject", []⟩,
  .primaryKeyType "ScopeType" "@scope" [],
  .caseType "ScopeKind" "ScopeType" "kind",
  .branch "UniverseScopeType" ⟨"ScopeKind", "@universescope", []⟩,
  .branch "PackageScopeType" ⟨"ScopeKind", "@packagescope", []⟩,
  .branch "LocalScopeType" ⟨"ScopeKind", "@localscope", ["LocatableType"]⟩]

def typeTypes : List Decl := [
  .caseType "TypeKind" "TypeType" "kind",
  .unionType "BasicType" "@basictype" [],
  .unionType "BoolType" "@booltype" ["BasicType"],
  .unionType "NumericType" "@numerictype" ["BasicType"],
  .unionType "IntegerType" "@integertype" ["NumericType"],
  .unionType "SignedIntegerType" "@signedintegertype" ["IntegerType"],
  .unionType "UnsignedIntegerType" "@unsignedintegertype" ["IntegerType"],
  .unionType "FloatType" "@floattype" ["NumericType"],
  .unionType "ComplexType" "@complextype" ["NumericType"],
  .unionType "StringType" "@stringtype" ["BasicType"],
  .unionType "LiteralType" "@literaltype" ["BasicType"],
  .branchMap "BasicTypes" [
    ("gotypes.Invalid", ⟨"TypeKind", "@invalidtype", ["BasicType"]⟩),
    ("gotypes.Bool", ⟨"TypeKind", "@boolexprtype", ["BoolType"]⟩),
    ("gotypes.Int", ⟨"TypeKind", "@inttype", ["SignedIntegerType"]⟩),
    ("gotypes.Int8", ⟨"TypeKind", "@int8type", ["SignedIntegerType"]⟩),
    ("gotypes.Int16", ⟨"TypeKind", "@int16type", ["SignedIntegerType"]⟩),
    ("gotypes.Int32", ⟨"TypeKind", "@int32type", ["SignedIntegerType"]⟩),
    ("gotypes.Int64", ⟨"TypeKind", "@int64type", ["SignedIntegerType"]⟩),
    ("gotypes.Uint", ⟨"TypeKind", "@uinttype", ["UnsignedIntegerType"]⟩),
    ("gotypes.Uint8", ⟨"TypeKind", "@uint8type", ["UnsignedIntegerType"]⟩),
    ("gotypes.Uint16", ⟨"TypeKind", "@uint16type", ["UnsignedIntegerType"]⟩),
    ("gotypes.Uint32", ⟨"TypeKind", "@uint32type", ["UnsignedIntegerType"]⟩),
    ("gotypes.Uint64", ⟨"TypeKind", "@uint64type", ["UnsignedIntegerType"]⟩),
    ("gotypes.Uintptr", ⟨"TypeKind", "@uintptrtype", ["BasicType"]⟩),
    ("gotypes.Float32", ⟨"TypeKind", "@float32type", ["FloatType"]⟩),
    ("gotypes.Float64", ⟨"TypeKind", "@float64type", ["FloatType"]⟩),
    ("gotypes.Complex64", ⟨"TypeKind", "@complex64type", ["ComplexType"]⟩),
    ("gotypes.Complex128", ⟨"TypeKind", "@complex128type", ["ComplexType"]⟩),
    ("gotypes.String", ⟨"TypeKind", "@stringexprtype", ["StringType"]⟩),
    ("gotypes.UnsafePointer", ⟨"TypeKind", "@unsafepointertype", ["BasicType"]⟩),
    ("gotypes.UntypedBool", ⟨"TypeKind", "@boolliteraltype", ["LiteralType", "BoolType"]⟩),
    ("gotypes.UntypedInt", ⟨"TypeKind", "@intliteraltype", ["LiteralType", "SignedIntegerType"]⟩),
    ("gotypes.UntypedRune", ⟨"TypeKind", "@runeliteraltype", ["LiteralType", "SignedIntegerType"]⟩),
    ("gotypes.UntypedFloat", ⟨"TypeKind", "@floatliteraltype", ["LiteralType", "FloatType"]⟩),
    ("gotypes.UntypedComplex", ⟨"TypeKind", "@complexliteraltype", ["LiteralType", "ComplexType"]⟩),
    ("gotypes.UntypedString", ⟨"TypeKind", "@stringliteraltype", ["LiteralType", "StringType"]⟩),
    ("gotypes.UntypedNil", ⟨"TypeKind", "@nilliteraltype", ["LiteralType"]⟩)],
  .unionType "CompositeType" "@compositetype" [],
  .unionType "ElementContainerType" "@containertype" ["CompositeType"],
  .branch "ArrayType" ⟨"TypeKind", "@arraytype", ["ElementContainerType"]⟩,
  .branch "SliceType" ⟨"TypeKind", "@slicetype", ["ElementContainerType"]⟩,
  .branch "StructType" ⟨"TypeKind", "@structtype", ["CompositeType"]⟩,
  .branch "PointerType" ⟨"TypeKind", "@pointertype", ["CompositeType"]⟩,
  .branch "InterfaceType" ⟨"TypeKind", "@interfacetype", ["CompositeType"]⟩,
  .branch "TupleType" ⟨"TypeKind", "@tupletype", ["CompositeType"]⟩,
  .branch "SignatureType" ⟨"TypeKind", "@signaturetype", ["CompositeType"]⟩,
  .branch "MapType" ⟨"TypeKind", "@maptype", ["ElementContainerType"]⟩,
  .unionType "ChanType" "@chantype" ["ElementContainerType"],
  .branchMap "ChanTypes" [
    ("gotypes.SendOnly", ⟨"TypeKind", "@sendchantype", ["ChanType"]⟩),
    ("gotypes.RecvOnly", ⟨"TypeKind", "@recvchantype", ["ChanType"]⟩),
    ("gotypes.SendRecv", ⟨"TypeKind", "@sendrcvchantype", ["ChanType"]⟩)],
  .branch "NamedType" ⟨"TypeKind", "@namedtype", ["CompositeType"]⟩,
  .primaryKeyType "PackageType" "@package" []]

def tableDeclsA : List Decl := [
  .table "LocationsDefaultTable" "locations_default" [
    (EntityColumn "LocationDefaultType" "id").Key,
    EntityColumn "FileType" "file",
    IntColumn "beginLine",
    IntColumn "beginColumn",
    IntColumn "endLine",
    IntColumn "endColumn"]
    [],
  .table "NumlinesTable" "numlines" [
    EntityColumn "SourceLineType" "element_id",
    IntColumn "num_lines",
    IntColumn "num_code",
    IntColumn "num_comment"]
    [],
  .table "FilesTable" "files" [
    (EntityColumn "FileType" "id").Key,
    StringColumn "name",
    StringColumn "simple",
    StringColumn "ext",
    IntColumn "fromSource"]
    [],
  .table "FoldersTable" "folders" [
    (EntityColumn "FolderType" "id").Key,
    StringColumn "name",
    StringColumn "simple"]
    [],
  .table "ContainerParentTable" "containerparent" [
    EntityColumn "ContainerType" "parent",
    (EntityColumn "ContainerType" "child").Unique]
    [],
  .table "HasLocationTable" "has_location" [
    (EntityColumn "LocatableType" "locatable").Unique,
    EntityColumn "LocationType" "location"]
    [],
  .table "CommentGroupsTable" "comment_groups" [
    (EntityColumn "CommentGroupType" "id").Key]
    [],
  .table "CommentsTable" "comments" [
    (EntityColumn "CommentType" "id").Key,
    IntColumn "kind",
    EntityColumn "CommentGroupType" "parent",
    IntColumn "idx",
    StringColumn "text"]
    [],
  .table "DocCommentsTable" "doc_comments" [
    (EntityColumn "DocumentableType" "node").Unique,
    EntityColumn "CommentGroupType" "comment"]
    [],
  .table "ExprsTable" "exprs" [
    (EntityColumn "ExprType" "id").Key,
    IntColumn "kind",
    EntityColumn "ExprParentType" "parent",
    IntColumn "idx"]
    [["parent", "idx"]],
  .table "LiteralsTable" "literals" [
    (EntityColumn "ExprType" "expr").Unique,
    StringColumn "value",
    StringColumn "raw"]
    [],
  .table "ConstValuesTable" "constvalues" [
    (EntityColumn "ExprType" "expr").Unique,
    StringColumn "value",
    StringColumn "exact"]
    [],
  .table "FieldsTable" "fields" [
    (EntityColumn "FieldType" "id").Key,
    EntityColumn "FieldParentType" "parent",
    IntColumn "idx"]
    [],
  .table "StmtsTable" "stmts" [
    (EntityColumn "StmtType" "id").Key,
    IntColumn "kind",
    EntityColumn "StmtParentType" "parent",
    IntColumn "idx"]
    [["parent", "idx"]],
  .table "DeclsTable" "decls" [
    (EntityColumn "DeclType" "id").Key,
    IntColumn "kind",
    EntityColumn "DeclParentType" "parent",
    IntColumn "idx"]
    [["parent", "idx"]],
  .table "SpecsTable" "specs" [
    (EntityColumn "SpecType" "id").Key,
    IntColumn "kind",
    EntityColumn "GenDeclType" "parent",
    IntColumn "idx"]
    [["parent", "idx"]]]

def tableDeclsB : List Decl := [
  .table "ScopesTable" "scopes" [
    (EntityColumn "ScopeType" "id").Key,
    IntColumn "kind"]
    [],
  .table "ScopeNestingTable" "scopenesting" [
    (EntityColumn "ScopeType" "inner").Unique,
    EntityColumn "ScopeType" "outer"]
    [],
  .table "ScopeNodesTable" "scopenodes" [
    (EntityColumn "ScopeNodeType" "node").Unique,
    EntityColumn "LocalScopeType" "scope"]
    [],
  .table "ObjectsTable" "objects" [
    (EntityColumn "ObjectType" "id").Key,
    IntColumn "kind",
    StringColumn "name"]
    [],
  .table "ObjectScopesTable" "objectscopes" [
    (EntityColumn "ObjectType" "object").Unique,
    EntityColumn "ScopeType" "scope"]
    [],
  .table "ObjectTypesTable" "objecttypes" [
    (EntityColumn "ObjectType" "object").Unique,
    EntityColumn "TypeType" "tp"]
    [],
  .table "MethodReceiversTable" "methodreceivers" [
    (EntityColumn "ObjectType" "method").Unique,
    EntityColumn "ObjectType" "receiver"]
    [],
  .table "FieldStructsTable" "fieldstructs" [
    (EntityColumn "ObjectType" "field").Unique,
    EntityColumn "StructType" "struct"]
    [],
  .table "MethodHostsTable" "methodhosts" [
    (EntityColumn "ObjectType" "method").Unique,
    EntityColumn "NamedType" "host"]
    [],
  .table "DefsTable" "defs" [
    EntityColumn "IdentExpr" "ident",
    EntityColumn "ObjectType" "object"]
    [],
  .table "UsesTable" "uses" [
    EntityColumn "IdentExpr" "ident",
    EntityColumn "ObjectType" "object"]
    [],
  .table "TypesTable" "types" [
    (EntityColumn "TypeType" "id").Key,
    IntColumn "kind"]
    [],
  .table "TypeOfTable" "type_of" [
    (EntityColumn "ExprType" "expr").Unique,
    EntityColumn "TypeType" "tp"]
    [],
  .table "TypeNameTable" "typename" [
    (EntityColumn "TypeType" "tp").Unique,
    StringColumn "name"]
    [],
  .table "KeyTypeTable" "key_type" [
    (EntityColumn "MapType" "map").Unique,
    EntityColumn "TypeType" "tp"]
    [],
  .table "ElementTypeTable" "element_type" [
    (EntityColumn "ElementContainerType" "container").Unique,
    EntityColumn "TypeType" "tp"]
    [],
  .table "BaseTypeTable" "base_type" [
    (EntityColumn "PointerType" "ptr").Unique,
    EntityColumn "TypeType" "tp"]
    [],
  .table "UnderlyingTypeTable" "underlying_type" [
    (EntityColumn "NamedType" "named").Unique,
    EntityColumn "TypeType" "tp"]
    [],
  .table "ComponentTypesTable" "component_types" [
    EntityColumn "CompositeType" "parent",
    IntColumn "index",
    StringColumn "name",
    EntityColumn "TypeType" "tp"]
    [["parent", "index"]],
  .table "ArrayLengthTable" "array_length" [
    (EntityColumn "ArrayType" "tp").Unique,
    StringColumn "len"]
    [],
  .table "TypeObjectTable" "type_objects" [
    (EntityColumn "TypeType" "tp").Unique,
    EntityColumn "ObjectType" "object"]
    [],
  .table "PackagesTable" "packages" [
    (EntityColumn "PackageType" "id").Key,
    StringColumn "name",
    StringColumn "path",
    EntityColumn "PackageScopeType" "scope"]
    []]

def catalog : List Decl :=
  .snippet "defaultSnippet" defaultSnippetText ::
  (latticeCore ++ (exprTypes ++ (stmtTypes ++ (declObjectTypes ++ (typeTypes ++
    (tableDeclsA ++ tableDeclsB))))))

/-! ## Comparing names

Names are compared through an injective numeric code, which the kernel evaluates
faster than character-wise equality; `sameName_iff` shows it is equality. -/

/-- Numeric code of a character list. -/
def codeChars : List Char → Nat
  | [] => 0
  | c :: cs => codeChars cs * 8589934592 + (c.toNat + 1)

/-- Numeric code of a name. -/
def code (s : String) : Nat := codeChars s.data

/-- Name equality, decided on the codes. -/
def sameName (a b : String) : Bool := Nat.beq (code a) (code b)

/-- Whether a name occurs in a list of names. -/
def hasName (l : List String) (n : String) : Bool := l.any (fun m => sameName m n)

/-! ## Reading the catalog -/

/-- Go variable declared by a declaration. -/
def Decl.varName : Decl → String
  | .snippet v _ => v
  | .unionType v _ _ => v
  | .primaryKeyType v _ _ => v
  | .aliasType v _ _ => v
  | .caseType v _ _ => v
  | .branch v _ => v
  | .branchMap v _ => v
  | .table v _ _ _ => v

/-- Go variable mentioned by a column, if it is an entity column. -/
def Column.typeVar? (c : Column) : Option String :=
  match c.columnType with
  | .entity t => some t
  | .int => none
  | .string => none

/-- Go variables mentioned by a `NewBranch` call: the receiver, then the parents. -/
def BranchCall.refs (c : BranchCall) : List String := c.caseVar :: c.parents

/-- Go variables mentioned by the initialiser of a declaration, in lexical order. -/
def Decl.refs : Decl → List String
  | .snippet _ _ => []
  | .unionType _ _ ps => ps
  | .primaryKeyType _ _ ps => ps
  | .aliasType _ _ t => [t]
  | .caseType _ b _ => [b]
  | .branch _ c => c.refs
  | .branchMap _ es => es.flatMap (fun e => e.2.refs)
  | .table _ _ cols _ => cols.filterMap Column.typeVar?

/-- Variant of a declared type. -/
inductive Variant where
  | union
  | primaryKey
  | alias
  | branch
  deriving DecidableEq, Repr

/-- Type declared by the catalog: its dbscheme name, its variant, the Go
variables given as union supertypes, and for a branch the variable of its case
type.  `holder` is the Go variable whose initialiser creates the type. -/
structure TypeDecl where
  holder : String
  name : String
  variant : Variant
  parents : List String
  caseVar : Option String
  deriving DecidableEq, Repr

/-- Type created by a `NewBranch` call. -/
def BranchCall.typeDecl (holder : String) (c : BranchCall) : TypeDecl :=
  ⟨holder, c.name, .branch, c.parents, some c.caseVar⟩

/-- Types created by one declaration, in lexical order. -/
def Decl.typeDecls : Decl → List TypeDecl
  | .snippet _ _ => []
  | .unionType v n ps => [⟨v, n, .union, ps, none⟩]
  | .primaryKeyType v n ps => [⟨v, n, .primaryKey, ps, none⟩]
  | .aliasType v n _ => [⟨v, n, .alias, [], none⟩]
  | .caseType _ _ _ => []
  | .branch v c => [c.typeDecl v]
  | .branchMap v es => es.map (fun e => e.2.typeDecl v)
  | .table _ _ _ _ => []

/-- All types created by a list of declarations, in lexical order. -/
def typeDecls (ds : List Decl) : List TypeDecl := ds.flatMap Decl.typeDecls

/-- Names of all declared types, in lexical order. -/
def typeNames (ds : List Decl) : List String := (typeDecls ds).map TypeDecl.name

/-- Names of the declared types of one variant, in lexical order. -/
def namesOfVariant (ds : List Decl) (k : Variant) : List String :=
  ((typeDecls ds).filter (fun t => t.variant = k)).map TypeDecl.name

/-- Name of the type held by the variable of a declaration: only variables
initialised directly by a type constructor hold a type. -/
def Decl.heldType? : Decl → Option String
  | .unionType _ n _ => some n
  | .primaryKeyType _ n _ => some n
  | .aliasType _ n _ => some n
  | .branch _ c => some c.name
  | _ => none

/-- Variant of the type held by the variable of a declaration. -/
def Decl.heldVariant? : Decl → Option Variant
  | .unionType _ _ _ => some .union
  | .primaryKeyType _ _ _ => some .primaryKey
  | .aliasType _ _ _ => some .alias
  | .branch _ _ => some .branch
  | _ => none

/-- Declaration of a Go variable. -/
def declOfVar (ds : List Decl) (v : String) : Option Decl :=
  ds.find? (fun d => sameName d.varName v)

/-- Resolve a Go variable to the name of the type it holds. -/
def nameOfVar (ds : List Decl) (v : String) : Option String :=
  match declOfVar ds v with
  | some d => d.heldType?
  | none => none

/-- Variant of the type held by a Go variable. -/
def variantOfVar (ds : List Decl) (v : String) : Option Variant :=
  match declOfVar ds v with
  | some d => d.heldVariant?
  | none => none

/-- Declared union supertypes of the type named `n`, by name. -/
def supersOf (ds : List Decl) (n : String) : List String :=
  ((typeDecls ds).filter (fun t => sameName t.name n)).flatMap
    (fun t => t.parents.filterMap (nameOfVar ds))

/-- Declared supertype edge: `b` is a declared union supertype of `a`. -/
def IsSuper (ds : List Decl) (a b : String) : Prop := b ∈ supersOf ds a

/-- Membership: there is a non-empty path of declared supertype edges. -/
def Member (ds : List Decl) (m u : String) : Prop := Relation.TransGen (IsSuper ds) m u

/-- The `NewBranch` calls of a declaration, in lexical order. -/
def Decl.branchCalls : Decl → List BranchCall
  | .branch _ c => [c]
  | .branchMap _ es => es.map Prod.snd
  | _ => []

/-- Names of the branches created on the case type held by `caseVar`, in the
lexical order of the `NewBranch` calls. -/
def branchesOf (ds : List Decl) (caseVar : String) : List String :=
  ((ds.flatMap Decl.branchCalls).filter (fun c => sameName c.caseVar caseVar)).map
    BranchCall.name

/-- Case-type declaration `var v = NewCaseType(base, column)`. -/
structure CaseDecl where
  v : String
  base : String
  column : String
  deriving DecidableEq, Repr

/-- Case-type declaration made by a declaration, if any. -/
def Decl.caseDecl? : Decl → Option CaseDecl
  | .caseType v b c => some ⟨v, b, c⟩
  | _ => none

/-- Case-type declarations, in lexical order. -/
def caseDecls (ds : List Decl) : List CaseDecl := ds.filterMap Decl.caseDecl?

/-- Go variables holding case types, in lexical order. -/
def caseVars (ds : List Decl) : List String := (caseDecls ds).map CaseDecl.v

/-- Number the elements of a list from `k` on. -/
def numberFrom : Nat → List String → List (String × Nat)
  | _, [] => []
  | k, n :: ns => (n, k) :: numberFrom (k + 1) ns

/-- Positional tags of a case type: the `k`-th `NewBranch` call on it, counting
from 0 in lexical order, is paired with `k`. -/
def positionalTags (ds : List Decl) (caseVar : String) : List (String × Nat) :=
  numberFrom 0 (branchesOf ds caseVar)

/-- Names of the branches created by the entries of the map literal held by
variable `v`, in lexical order of the entries. -/
def mapEntries (ds : List Decl) (v : String) : List String :=
  ds.flatMap (fun d => match d with
    | .branchMap w es => if sameName w v then es.map (fun e => e.2.name) else []
    | _ => [])

/-- Table declaration `var v = NewTable(name, columns...).KeySet(...)...`. -/
structure TableDecl where
  v : String
  name : String
  columns : List Column
  keysets : List (List String)
  deriving DecidableEq, Repr

/-- Table declared by a declaration, if any. -/
def Decl.tableDecl? : Decl → Option TableDecl
  | .table v n cols ks => some ⟨v, n, cols, ks⟩
  | _ => none

/-- Tables declared through `NewTable`, in lexical order. -/
def tableDecls (ds : List Decl) : List TableDecl := ds.filterMap Decl.tableDecl?

/-- Columns of a table marked `Key`. -/
def TableDecl.keyColumns (t : TableDecl) : List Column := t.columns.filter (fun c => c.key)

/-- Names of the columns of a table, in order. -/
def TableDecl.columnNames (t : TableDecl) : List String := t.columns.map Column.columnName

/-- Whether a column is a plain integer column: `IntColumn` without modifier. -/
def Column.isPlainInt (c : Column) : Bool :=
  match c.columnType with
  | .int => !c.key && !c.unique
  | _ => false

/-- Whether every variable mentioned from `ds` on is declared before its use,
given the variables `seen` so far (most recent first). -/
def backwardFrom : List String → List Decl → Bool
  | _, [] => true
  | seen, d :: ds => d.refs.all (hasName seen) && backwardFrom (d.varName :: seen) ds

/-- Go package initialisation picks the first variable in declaration order
that is not yet initialised and whose initialiser depends on initialised
variables only; returns it with the declarations that remain. -/
def pickReady (done : List String) : List Decl → Option (Decl × List Decl)
  | [] => none
  | d :: ds =>
    if d.refs.all (hasName done) then some (d, ds)
    else match pickReady done ds with
      | some (r, rest) => some (r, d :: rest)
      | none => none

/-- Order in which Go initialises the package-level variables: repeat
`pickReady` until nothing is ready (at most `fuel` rounds). -/
def initOrder : Nat → List String → List Decl → List String
  | 0, _, _ => []
  | fuel + 1, done, pending =>
    match pickReady done pending with
    | some (d, rest) => d.varName :: initOrder fuel (d.varName :: done) rest
    | none => []

/-- Whether every declared supertype of the types from `ts` on resolves to a
type declared before, given the type names `seen` so far. -/
def supersBefore (ds : List Decl) : List String → List TypeDecl → Bool
  | _, [] => true
  | seen, t :: ts =>
    t.parents.all (fun v => match nameOfVar ds v with
      | some b => hasName seen b
      | none => true)
    && supersBefore ds (t.name :: seen) ts

/-- Whether no name of the list occurs twice. -/
def distinctNames : List String → Bool
  | [] => true
  | n :: ns => !hasName ns n && distinctNames ns

/-! ## The registry engine

The constructors called by `tables.go` live in the engine, which is not among
the given sources.  The definitions of this section follow the written
specification of that engine. -/

/-- Modelled from the spec: the construction-time error kinds of section 7;
the engine that raises them is not part of `tables.go`. -/
inductive SchemaError where
  | DuplicateName (name : String)
  | UnknownTypeReference (ref : String)
  | CyclicUnion (path : List String)
  | InvalidKeySet (table : String) (keys : List String)
  | ConflictingModifiers (table : String)
  deriving DecidableEq, Repr

/-- Modelled from the spec: the variants of a registered type (section 3).  A
branch records the handle of its case type and the tag it received. -/
inductive TypeVariant where
  | union
  | primaryKey
  | alias (target : String)
  | branch (caseId : Nat) (tag : Nat)
  deriving DecidableEq, Repr

/-- Modelled from the spec: a node of the type lattice with its declared
supertypes, by name. -/
structure TypeEntry where
  name : String
  variant : TypeVariant
  supertypes : List String
  deriving DecidableEq, Repr

/-- Modelled from the spec: a case type, that is a base primary-key type with a
discriminator column, its own tag counter and its ordered branches. -/
structure CaseType where
  base : String
  column : String
  nextTag : Nat
  branches : List (String × Nat)
  deriving DecidableEq, Repr

/-- Modelled from the spec: a registered table; entity columns carry the name of
the registered type they refer to. -/
structure Table where
  name : String
  columns : List Column
  keysets : List (List String)
  deriving DecidableEq, Repr

/-- Modelled from the spec: an entry of the emission order, either a table (by
name) or a raw fragment kept verbatim. -/
inductive Item where
  | table (name : String)
  | raw (text : String)
  deriving DecidableEq, Repr

/-- Modelled from the spec: the registry under construction (section 3,
"Schema").  `types`, `tables` and `items` hold the most recent declaration
first; `cases` is indexed by the handles of the case types. -/
structure Schema where
  types : List TypeEntry
  cases : List CaseType
  tables : List Table
  items : List Item
  deriving DecidableEq, Repr

/-- Modelled from the spec: the registry before any declaration (engine not in
`tables.go`). -/
def Schema.empty : Schema := ⟨[], [], [], []⟩

/-- Modelled from the spec: whether a type of this name is registered (lookup of
the engine, not in `tables.go`). -/
def Schema.hasType (s : Schema) (n : String) : Bool := s.types.any (fun t => sameName t.name n)

/-- Modelled from the spec: whether a table of this name is registered (lookup
of the engine, not in `tables.go`). -/
def Schema.hasTable (s : Schema) (n : String) : Bool := s.tables.any (fun t => sameName t.name n)

/-- Modelled from the spec: first name of the list that is not a registered
type, the forward reference the engine reports. -/
def Schema.firstUnknown (s : Schema) : List String → Option String
  | [] => none
  | n :: ns => if s.hasType n then s.firstUnknown ns else some n

/-- Modelled from the spec: common part of every type declaration (section 4.1):
the name must be new (`DuplicateName`) and every supertype must already be
registered (`UnknownTypeReference`). -/
def Schema.addType (s : Schema) (name : String) (variant : TypeVariant)
    (supers : List String) : Except SchemaError Schema :=
  if s.hasType name then .error (.DuplicateName name)
  else match s.firstUnknown supers with
    | some n => .error (.UnknownTypeReference n)
    | none => .ok { s with types := ⟨name, variant, supers⟩ :: s.types }

/-- Modelled from the spec: `declareUnion(name, ...supertypes)`. -/
def Schema.declareUnion (s : Schema) (name : String) (supers : List String) :
    Except SchemaError Schema :=
  s.addType name .union supers

/-- Modelled from the spec: `declarePrimaryKey(name, ...supertypes)`. -/
def Schema.declarePrimaryKey (s : Schema) (name : String) (supers : List String) :
    Except SchemaError Schema :=
  s.addType name .primaryKey supers

/-- Modelled from the spec: `declareAlias(name, target)`; the target must be
registered and the alias adds no membership of its own. -/
def Schema.declareAlias (s : Schema) (name target : String) : Except SchemaError Schema :=
  if s.hasType target then s.addType name (.alias target) []
  else if s.hasType name then .error (.DuplicateName name)
  else .error (.UnknownTypeReference target)

/-- Modelled from the spec: `declareCase(baseType, discriminatorColumnName)`;
returns the registry and the handle of the new case type, whose counter starts
at the fixed base 0. -/
def Schema.declareCase (s : Schema) (base column : String) : Except SchemaError (Schema × Nat) :=
  if s.hasType base then
    .ok ({ s with cases := s.cases ++ [⟨base, column, 0, []⟩] }, s.cases.length)
  else .error (.UnknownTypeReference base)

/-- Modelled from the spec: record a new branch on a case type and advance its
counter (the per-case counter of the engine). -/
def CaseType.push (c : CaseType) (name : String) : CaseType :=
  { c with nextTag := c.nextTag + 1, branches := c.branches ++ [(name, c.nextTag)] }

/-- Modelled from the spec: `case.newBranch(name, ...extraSupertypes)`; the
branch receives the next unused integer of its case type. -/
def Schema.newBranch (s : Schema) (caseId : Nat) (name : String) (extra : List String) :
    Except SchemaError Schema :=
  match s.cases.get? caseId with
  | none => .error (.UnknownTypeReference name)
  | some c =>
    match s.addType name (.branch caseId c.nextTag) extra with
    | .error e => .error e
    | .ok s1 => .ok { s1 with cases := s1.cases.set caseId (c.push name) }

/-- Modelled from the spec: first name occurring twice in a list, the
colliding column name the engine reports. -/
def firstDuplicate : List String → Option String
  | [] => none
  | n :: ns => if hasName ns n then some n else firstDuplicate ns

/-- Modelled from the spec: first entity column whose type is not registered. -/
def Schema.firstUnknownColumn (s : Schema) (cols : List Column) : Option String :=
  s.firstUnknown (cols.filterMap Column.typeVar?)

/-- Modelled from the spec: `declareTable(name, ...columns)` with the contracts
of section 4.2: table name new, column names unique, entity types registered,
at most one key column, no column both key and unique. -/
def Schema.declareTable (s : Schema) (name : String) (cols : List Column) :
    Except SchemaError Schema :=
  if s.hasTable name then .error (.DuplicateName name)
  else match firstDuplicate (cols.map Column.columnName) with
    | some c => .error (.DuplicateName c)
    | none =>
      match s.firstUnknownColumn cols with
      | some t => .error (.UnknownTypeReference t)
      | none =>
        if 1 < (cols.filter (fun c => c.key)).length then .error (.ConflictingModifiers name)
        else if cols.any (fun c => c.key && c.unique) then .error (.ConflictingModifiers name)
        else .ok { s with tables := ⟨name, cols, []⟩ :: s.tables,
                          items := .table name :: s.items }

/-- Modelled from the spec: add a key-set to the registered table of the given
name. -/
def addKeySet (name : String) (keys : List String) : List Table → List Table
  | [] => []
  | t :: ts =>
    if sameName t.name name then { t with keysets := t.keysets ++ [keys] } :: ts
    else t :: addKeySet name keys ts

/-- Modelled from the spec: table modifier `.keySet(...columnNames)`; the
key-set must be non-empty and name only columns of the table (`InvalidKeySet`). -/
def Schema.keySet (s : Schema) (name : String) (keys : List String) : Except SchemaError Schema :=
  match s.tables.find? (fun t => sameName t.name name) with
  | none => .error (.InvalidKeySet name keys)
  | some t =>
    if keys.isEmpty then .error (.InvalidKeySet name keys)
    else if keys.all (fun k => hasName (t.columns.map Column.columnName) k) then
      .ok { s with tables := addKeySet name keys s.tables }
    else .error (.InvalidKeySet name keys)

/-- Modelled from the spec: `addRawFragment(text)`; stored verbatim at the
current position of the emission order, without validation. -/
def Schema.addRawFragment (s : Schema) (text : String) : Schema :=
  { s with items := .raw text :: s.items }

/-! ## Package initialisation of `tables.go` on the engine -/

/-- What a package-level variable of `tables.go` holds once initialised. -/
inductive Value where
  | type (name : String)
  | caseType (caseId : Nat)
  | table (name : String)
  | branchMap (entries : List (String × String))
  | snippet
  deriving DecidableEq, Repr

/-- Registry together with the values of the variables initialised so far (most
recent first). -/
structure State where
  schema : Schema
  env : List (String × Value)
  deriving DecidableEq, Repr

/-- State before package initialisation. -/
def State.init : State := ⟨Schema.empty, []⟩

/-- Value of a variable. -/
def State.lookup (st : State) (v : String) : Option Value :=
  match st.env.find? (fun e => sameName e.1 v) with
  | some e => some e.2
  | none => none

/-- Modelled from the spec: resolve a type argument; a variable that holds no
registered type yet is a forward reference (`UnknownTypeReference`). -/
def State.typeArg (st : State) (v : String) : Except SchemaError String :=
  match st.lookup v with
  | some (.type n) => .ok n
  | _ => .error (.UnknownTypeReference v)

/-- Resolve a list of type arguments, left to right. -/
def State.typeArgs (st : State) : List String → Except SchemaError (List String)
  | [] => .ok []
  | v :: vs =>
    match st.typeArg v with
    | .error e => .error e
    | .ok n =>
      match st.typeArgs vs with
      | .error e => .error e
      | .ok ns => .ok (n :: ns)

/-- Modelled from the spec: resolve the receiver of a `NewBranch` call; the case
type must exist before its branches. -/
def State.caseArg (st : State) (v : String) : Except SchemaError Nat :=
  match st.lookup v with
  | some (.caseType i) => .ok i
  | _ => .error (.UnknownTypeReference v)

/-- Bind a variable to its value. -/
def State.bind (st : State) (s : Schema) (v : String) (x : Value) : State :=
  ⟨s, (v, x) :: st.env⟩

/-- Evaluate one `NewBranch` call on the registry. -/
def State.evalBranch (st : State) (s : Schema) (c : BranchCall) : Except SchemaError Schema :=
  match st.caseArg c.caseVar with
  | .error e => .error e
  | .ok i =>
    match st.typeArgs c.parents with
    | .error e => .error e
    | .ok ps => s.newBranch i c.name ps

/-- Evaluate the entries of a map literal in lexical order. -/
def State.evalEntries (st : State) : Schema → List (String × BranchCall) →
    Except SchemaError (Schema × List (String × String))
  | s, [] => .ok (s, [])
  | s, (k, c) :: es =>
    match st.evalBranch s c with
    | .error e => .error e
    | .ok s1 =>
      match st.evalEntries s1 es with
      | .error e => .error e
      | .ok (s2, r) => .ok (s2, (k, c.name) :: r)

/-- Resolve the entity types of the columns of a table. -/
def State.columnArgs (st : State) : List Column → Except SchemaError (List Column)
  | [] => .ok []
  | c :: cs =>
    match st.columnArgs cs, c.columnType with
    | .error e, _ => .error e
    | .ok r, .entity v =>
      (match st.typeArg v with
      | .error e => .error e
      | .ok n => .ok ({ c with columnType := .entity n } :: r))
    | .ok r, _ => .ok (c :: r)

/-- Apply the chained `.KeySet(...)` calls of a table declaration. -/
def applyKeySets (name : String) : Schema → List (List String) → Except SchemaError Schema
  | s, [] => .ok s
  | s, k :: ks =>
    match s.keySet name k with
    | .error e => .error e
    | .ok s1 => applyKeySets name s1 ks

/-- Initialise one package-level variable. -/
def State.initDecl (st : State) : Decl → Except SchemaError State
  | .snippet v text => .ok (st.bind (st.schema.addRawFragment text) v .snippet)
  | .unionType v n ps =>
    match st.typeArgs ps with
    | .error e => .error e
    | .ok qs =>
      match st.schema.declareUnion n qs with
      | .error e => .error e
      | .ok s => .ok (st.bind s v (.type n))
  | .primaryKeyType v n ps =>
    match st.typeArgs ps with
    | .error e => .error e
    | .ok qs =>
      match st.schema.declarePrimaryKey n qs with
      | .error e => .error e
      | .ok s => .ok (st.bind s v (.type n))
  | .aliasType v n t =>
    match st.typeArg t with
    | .error e => .error e
    | .ok q =>
      match st.schema.declareAlias n q with
      | .error e => .error e
      | .ok s => .ok (st.bind s v (.type n))
  | .caseType v b col =>
    match st.typeArg b with
    | .error e => .error e
    | .ok q =>
      match st.schema.declareCase q col with
      | .error e => .error e
      | .ok (s, i) => .ok (st.bind s v (.caseType i))
  | .branch v c =>
    match st.evalBranch st.schema c with
    | .error e => .error e
    | .ok s => .ok (st.bind s v (.type c.name))
  | .branchMap v es =>
    match st.evalEntries st.schema es with
    | .error e => .error e
    | .ok (s, r) => .ok (st.bind s v (.branchMap r))
  | .table v n cols ks =>
    match st.columnArgs cols with
    | .error e => .error e
    | .ok rcols =>
      match st.schema.declareTable n rcols with
      | .error e => .error e
      | .ok s =>
        match applyKeySets n s ks with
        | .error e => .error e
        | .ok s1 => .ok (st.bind s1 v (.table n))

/-- Initialise the variables of a declaration list in order, from a given
state; the first error stops the construction. -/
def buildFrom : State → List Decl → Except SchemaError State
  | st, [] => .ok st
  | st, d :: ds =>
    match st.initDecl d with
    | .error e => .error e
    | .ok st1 => buildFrom st1 ds

/-- Build the registry of a declaration list. -/
def build (ds : List Decl) : Except SchemaError State := buildFrom State.init ds

/-- Branches of every case type with their tags, in registration order. -/
def tagTable : Except SchemaError State → Option (List (List (String × Nat)))
  | .ok st => some (st.schema.cases.map CaseType.branches)
  | .error _ => none

/-! ## The declared supertype graph -/

/-- Position of a type name in the lexical order of the type declarations. -/
def rank (ds : List Decl) (n : String) : Nat := (typeNames ds).indexOf n

/-- Outcome of a traversal: the unions found or a validation error; `none`
when the traversal budget ran out. -/
abbrev Outcome := Option (Except SchemaError (List String))

/-- Visit the given supertypes in order with `f` and collect each of them
together with what `f` finds above it; the first failure stops the visit. -/
def visitAll (f : String → Outcome) : List String → Outcome
  | [] => some (.ok [])
  | p :: ps =>
    match f p with
    | some (.ok r) =>
      (match visitAll f ps with
      | some (.ok rs) => some (.ok (p :: r ++ rs))
      | other => other)
    | other => other

/-- Modelled from the spec: depth-first traversal of `close()` over the
supertype edges (section 4.1).  `path` holds the types being visited; meeting
one of them again is a back-edge and fails with `CyclicUnion` and the path.
Otherwise the result is every union above `n`. -/
def visit (sup : String → List String) : Nat → List String → String → Outcome
  | 0, _, _ => none
  | fuel + 1, path, n =>
    if hasName path n then some (.error (.CyclicUnion (n :: path).reverse))
    else visitAll (visit sup fuel (n :: path)) (sup n)

/-- Modelled from the spec: the unions a declared type transitively belongs to,
as computed by `close()`; the budget is the number of declared types plus one. -/
def closureOf (ds : List Decl) (n : String) : Outcome :=
  visit (supersOf ds) ((typeNames ds).length + 1) [] n

/-- Run `f` on every name in order and pair each name with its result; the
first failure stops the run. -/
def closeAll (f : String → Outcome) :
    List String → Option (Except SchemaError (List (String × List String)))
  | [] => some (.ok [])
  | n :: ns =>
    match f n with
    | some (.ok r) =>
      (match closeAll f ns with
      | some (.ok rs) => some (.ok ((n, r) :: rs))
      | other => other)
    | some (.error e) => some (.error e)
    | none => none

/-- Modelled from the spec: the validation pass `close()` over all declared
types: it fails with `CyclicUnion` on the first cycle found and otherwise
returns the union membership of every type. -/
def close (ds : List Decl) : Option (Except SchemaError (List (String × List String))) :=
  closeAll (closureOf ds) (typeNames ds)

/-! ## Membership through sets of unions -/

/-- Declared supertype edge whose target is not one of the names `skip`: the
edges of the graph from which the nodes `skip` are removed. -/
def IsSuperSkip (ds : List Decl) (skip : List String) (a b : String) : Prop :=
  IsSuper ds a b ∧ b ∉ skip

/-- Whether a declared type names, among its parents, a type of the set `D`. -/
def hasSuperIn (ds : List Decl) (D : List String) (t : TypeDecl) : Bool :=
  t.parents.any (fun v => match nameOfVar ds v with
    | some b => hasName D b
    | none => false)

/-- Whether no declared type outside `D` has a declared supertype inside `D`,
edges into the names `skip` not counted. -/
def sealedOutside (ds : List Decl) (skip D : List String) : Bool :=
  (typeDecls ds).all (fun t => hasName D t.name ||
    t.parents.all (fun v => match nameOfVar ds v with
      | some b => hasName skip b || !hasName D b
      | none => true))

/-- Whether every declared type of the set `D` is the target or has a declared
supertype inside `D`. -/
def linked (ds : List Decl) (target : String) (D : List String) : Bool :=
  (typeDecls ds).all (fun t => !hasName D t.name || sameName t.name target ||
    hasSuperIn ds D t)

/-- The declared types at or below `@node`. -/
def belowNode : List String :=
  ["@node", "@documentable", "@exprparent", "@fieldparent", "@stmtparent", "@declparent",
    "@funcdef", "@scopenode", "@file", "@comment_group", "@comment", "@expr", "@field", "@stmt",
    "@decl", "@spec", "@funclit", "@structtypeexpr", "@functypeexpr", "@interfacetypeexpr",
    "@declstmt", "@blockstmt", "@ifstmt", "@caseclause", "@switchstmt", "@exprswitchstmt",
    "@typeswitchstmt", "@commclause", "@loopstmt", "@forstmt", "@rangestmt", "@gendecl",
    "@importdecl", "@constdecl", "@typedecl", "@vardecl", "@funcdecl"]

/-- The declared types at or below `@locatable`. -/
def belowLocatable : List String := "@locatable" :: "@localscope" :: belowNode

/-- The declared types at or below `@unaryexpr`. -/
def belowUnaryExpr : List String :=
  ["@unaryexpr", "@logicalunaryexpr", "@bitwiseunaryexpr", "@arithmeticunaryexpr", "@plusexpr",
    "@minusexpr", "@notexpr", "@complementexpr", "@derefexpr", "@addressexpr", "@arrowexpr"]

/-- The declared types at or below `@binaryexpr`. -/
def belowBinaryExpr : List String :=
  ["@binaryexpr", "@logicalbinaryexpr", "@bitwisebinaryexpr", "@arithmeticbinaryexpr",
    "@shiftexpr", "@comparison", "@equalitytest", "@relationalcomparison", "@lorexpr",
    "@landexpr", "@eqlexpr", "@neqexpr", "@lssexpr", "@leqexpr", "@gtrexpr", "@geqexpr",
    "@addexpr", "@subexpr", "@orexpr", "@xorexpr", "@mulexpr", "@quoexpr", "@remexpr",
    "@shlexpr", "@shrexpr", "@andexpr", "@andnotexpr"]

/-- The declared types at or below `@operatorexpr`. -/
def belowOperatorExpr : List String :=
  "@operatorexpr" :: "@logicalexpr" :: "@arithmeticexpr" :: "@bitwiseexpr" ::
    (belowUnaryExpr ++ belowBinaryExpr)

/-- The declared types at or below `@basictype`. -/
def belowBasicType : List String :=
  ["@basictype", "@booltype", "@numerictype", "@integertype", "@signedintegertype",
    "@unsignedintegertype", "@floattype", "@complextype", "@stringtype", "@literaltype",
    "@invalidtype", "@boolexprtype", "@inttype", "@int8type", "@int16type", "@int32type",
    "@int64type", "@uinttype", "@uint8type", "@uint16type", "@uint32type", "@uint64type",
    "@uintptrtype", "@float32type", "@float64type", "@complex64type", "@complex128type",
    "@stringexprtype", "@unsafepointertype", "@boolliteraltype", "@intliteraltype",
    "@runeliteraltype", "@floatliteraltype", "@complexliteraltype", "@stringliteraltype",
    "@nilliteraltype"]

/-- The declared types at or below `@compositetype`. -/
def belowCompositeType : List String :=
  ["@compositetype", "@containertype", "@arraytype", "@slicetype", "@structtype",
    "@pointertype", "@interfacetype", "@tupletype", "@signaturetype", "@maptype", "@chantype",
    "@sendchantype", "@recvchantype", "@sendrcvchantype", "@namedtype"]

/-! ## Tables, keys and members -/

/-- Names of the tables with a `Key` column whose type resolves to the type
named `p`, one entry per such column. -/
def keyTablesOf (ds : List Decl) (p : String) : List String :=
  (tableDecls ds).flatMap (fun t => (t.keyColumns.filter (fun c =>
    match c.typeVar? with
    | some v => (match nameOfVar ds v with
      | some n => sameName n p
      | none => false)
    | none => false)).map (fun _ => t.name))

/-- Whether a table has a `Key` column of entity type `v` and a plain integer
column named `col`. -/
def TableDecl.discriminates (t : TableDecl) (v col : String) : Bool :=
  t.columns.any (fun c => c.key && (match c.typeVar? with
    | some w => sameName w v
    | none => false))
  && t.columns.any (fun c => c.isPlainInt && sameName c.columnName col)

/-- Go variables holding union types, in lexical order. -/
def unionVars (ds : List Decl) : List String :=
  ds.filterMap (fun d => match d with
    | .unionType v _ _ => some v
    | _ => none)

/-- Direct members of the union held by variable `u`: the declared types that
name `u` as a supertype, in the lexical order of their declarations. -/
def membersOf (ds : List Decl) (u : String) : List TypeDecl :=
  (typeDecls ds).filter (fun t => hasName t.parents u)

/-- Whether a member list has all its non-branch members before its branch
members. -/
def nonBranchFirst : List TypeDecl → Bool
  | [] => true
  | t :: ts =>
    (if t.variant = .branch then ts.all (fun s => s.variant = .branch) else true)
    && nonBranchFirst ts

/-- Entity column named `parent` of a table, if any. -/
def TableDecl.parentColumn? (t : TableDecl) : Option Column :=
  t.columns.find? (fun c => c.typeVar?.isSome && sameName c.columnName "parent")

/-- Integer column named `idx` or `index` of a table, if any. -/
def TableDecl.positionColumn? (t : TableDecl) : Option Column :=
  t.columns.find? (fun c => (match c.columnType with
    | .int => true
    | _ => false) && (sameName c.columnName "idx" || sameName c.columnName "index"))

/-- Whether a table stores ordered children: it has a `parent` entity column
and an integer position column. -/
def TableDecl.storesOrderedChildren (t : TableDecl) : Bool :=
  t.parentColumn?.isSome && t.positionColumn?.isSome

/-- Key-set over the parent and the position column of a table. -/
def TableDecl.childKeySet (t : TableDecl) : List String :=
  match t.positionColumn? with
  | some c => ["parent", c.columnName]
  | none => []

/-- Branch created by the entry with key `key` of the map literal held by `v`. -/
def mapEntry? (ds : List Decl) (v key : String) : Option BranchCall :=
  match declOfVar ds v with
  | some (.branchMap _ es) =>
    (match es.find? (fun e => sameName e.1 key) with
    | some e => some e.2
    | none => none)
  | _ => none

/-- Keys of `BasicTypes` for the Go basic kinds that are unsigned integer
types (package `go/types`). -/
def unsignedKinds : List String :=
  ["gotypes.Uint", "gotypes.Uint8", "gotypes.Uint16", "gotypes.Uint32", "gotypes.Uint64",
    "gotypes.Uintptr"]

/-! ## Relation names of the raw snippet -/

/-- Whether a name consists of lower-case letters and underscores only. -/
def lowerUnderscore (s : String) : Bool := s.data.all (fun c => c.isLower || c = '_')

/-- Whether a character can occur in a relation name. -/
def isNameChar (c : Char) : Bool := c.isAlphanum || c = '_'

/-- Split a text into its lines. -/
def linesOf : List Char → List (List Char)
  | [] => [[]]
  | c :: cs =>
    if c = Char.ofNat 10 then [] :: linesOf cs
    else match linesOf cs with
      | l :: ls => (c :: l) :: ls
      | [] => [[c]]

/-- Relation declared by a line of schema text: a name at the start of the
line, directly followed by an opening parenthesis. -/
def relationOfLine (l : List Char) : Option String :=
  match l.takeWhile isNameChar, l.dropWhile isNameChar with
  | c :: cs, '(' :: _ => if c.isAlpha then some (String.mk (c :: cs)) else none
  | _, _ => none

/-- Names of the relations declared in a schema text. -/
def snippetRelations (text : String) : List String :=
  (linesOf text.data).filterMap relationOfLine

/-! ## Emission -/

/-- Items of the emission order as declared by the catalog: the raw snippet and
the tables, in file order. -/
def declaredItems (ds : List Decl) : List Item :=
  ds.filterMap (fun d => match d with
    | .snippet _ text => some (.raw text)
    | .table _ n _ _ => some (.table n)
    | _ => none)

/-- Tags and emission order of a built registry. -/
def summary : Except SchemaError State → Option (List (List (String × Nat)) × List Item)
  | .ok st => some (st.schema.cases.map CaseType.branches, st.schema.items.reverse)
  | .error _ => none

/-- Modelled from the spec: text of a column (section 6): scalar kind or entity
reference `: @type ref`, `unique` for key and unique columns; the identity
column has no `ref`. -/
def renderColumn (c : Column) : String :=
  (if c.key || c.unique then "  unique " else "  ") ++
  (match c.columnType with
    | .entity t => "int " ++ c.columnName ++ " : " ++ t ++ (if c.key then "" else " ref")
    | .int => "int " ++ c.columnName ++ " : int ref"
    | .string => "string " ++ c.columnName ++ " : string ref")

/-- Modelled from the spec: text of a table: its key-sets, then the name and
the columns in declaration order. -/
def renderTable (t : Table) : String :=
  String.join (t.keysets.map (fun k => "#keyset[" ++ ", ".intercalate k ++ "]\n")) ++
  t.name ++ "(\n" ++ ",\n".intercalate (t.columns.map renderColumn) ++ ");\n\n"

/-- Modelled from the spec: text of an item; a raw fragment is emitted
verbatim. -/
def renderItem (s : Schema) : Item → String
  | .raw text => text
  | .table n =>
    match s.tables.find? (fun t => sameName t.name n) with
    | some t => renderTable t
    | none => ""

/-- Registered members of a union, in the order the memberships were
established. -/
def Schema.membersOf (s : Schema) (u : String) : List String :=
  (s.types.reverse.filter (fun t => hasName t.supertypes u)).map TypeEntry.name

/-- Modelled from the spec: declaration line of a union,
`@name = @member1 | @member2 | ...;`. -/
def renderUnion (s : Schema) (u : String) : String :=
  u ++ " = " ++ " | ".intercalate (s.membersOf u) ++ ";\n"

/-- Names of the registered unions, in declaration order. -/
def Schema.unions (s : Schema) : List String :=
  (s.types.reverse.filter (fun t => t.variant = .union)).map TypeEntry.name

/-- Modelled from the spec: `emit() -> text` (section 4.4): the items in
declaration order, then one declaration line per union. -/
def emit (s : Schema) : String :=
  String.join (s.items.reverse.map (renderItem s)) ++
  String.join (s.unions.map (renderUnion s))

/-! ## Direct members and the names of the raw snippet -/

/-- Names of the declared types that name the type `u` as a supertype, in
lexical order: the direct members of `u`. -/
def directMembers (ds : List Decl) (u : String) : List String :=
  ((typeDecls ds).filter (hasSuperIn ds [u])).map TypeDecl.name

/-- Whether the type created by `t` is held by a variable that resolves to it
and that some declared type names as a supertype. -/
def isNamedAsSuper (ds : List Decl) (t : TypeDecl) : Bool :=
  (match nameOfVar ds t.holder with
    | some n => sameName n t.name
    | none => false)
  && (typeDecls ds).any (fun s => hasName s.parents t.holder)

/-- Role of an occurrence of a type name in schema text: `defined` as the type
of a column written without `ref` or as the left-hand side of a union
declaration, `referenced` when followed by `ref`, `used` as a member on the
right-hand side of a union declaration. -/
inductive Role where
  | defined
  | referenced
  | used
  deriving DecidableEq, Repr

/-- Whether a text starts with the word `ref`. -/
def startsWithRef : List Char → Bool
  | 'r' :: 'e' :: 'f' :: [] => true
  | 'r' :: 'e' :: 'f' :: c :: _ => !isNameChar c
  | _ => false

/-- Role of a type name, from the last non-blank character before it and the
text after it. -/
def roleOf (before : Option Char) (after : List Char) : Role :=
  if startsWithRef (after.dropWhile (fun c => c = ' ')) then .referenced
  else match after.dropWhile (fun c => c = ' ') with
    | '=' :: _ => .defined
    | _ => if before = some ':' then .defined else .used

/-- Occurrences of type names (`@name`) in a text, in order, with their roles;
`before` is the last non-blank character read. -/
def typeOccurrences : Option Char → List Char → List (String × Role)
  | _, [] => []
  | before, c :: cs =>
    if c = '@' then
      (String.mk (c :: cs.takeWhile isNameChar), roleOf before (cs.dropWhile isNameChar))
        :: typeOccurrences (some c) cs
    else if c = ' ' ∨ c = Char.ofNat 10 then typeOccurrences before cs
    else typeOccurrences (some c) cs

/-- Type names occurring in a schema text with a given role. -/
def typesWithRole (text : String) (r : Role) : List String :=
  ((typeOccurrences none text.data).filter (fun o => o.2 = r)).map Prod.fst

/-! ## Keys of `BasicTypes` -/

/-- Keys and branch names of the entries of the map literal held by variable
`v`, in lexical order of the entries. -/
def mapPairs (ds : List Decl) (v : String) : List (String × String) :=
  ds.flatMap (fun d => match d with
    | .branchMap w es => if sameName w v then es.map (fun e => (e.1, e.2.name)) else []
    | _ => [])

/-- Numeric values of the `BasicKind` constants of the Go standard package
`go/types`, which `tables.go` imports as `gotypes`; they are declared there
with `iota` in this order. -/
def basicKindValues : List (String × Nat) :=
  [("gotypes.Invalid", 0), ("gotypes.Bool", 1), ("gotypes.Int", 2), ("gotypes.Int8", 3),
    ("gotypes.Int16", 4), ("gotypes.Int32", 5), ("gotypes.Int64", 6), ("gotypes.Uint", 7),
    ("gotypes.Uint8", 8), ("gotypes.Uint16", 9), ("gotypes.Uint32", 10),
    ("gotypes.Uint64", 11), ("gotypes.Uintptr", 12), ("gotypes.Float32", 13),
    ("gotypes.Float64", 14), ("gotypes.Complex64", 15), ("gotypes.Complex128", 16),
    ("gotypes.String", 17), ("gotypes.UnsafePointer", 18), ("gotypes.UntypedBool", 19),
    ("gotypes.UntypedInt", 20), ("gotypes.UntypedRune", 21), ("gotypes.UntypedFloat", 22),
    ("gotypes.UntypedComplex", 23), ("gotypes.UntypedString", 24),
    ("gotypes.UntypedNil", 25)]

/-- Numeric value of a `BasicKind` constant. -/
def basicKindValue (k : String) : Option Nat :=
  match basicKindValues.find? (fun p => sameName p.1 k) with
  | some p => some p.2
  | none => none

/-! ## The text emitted for the catalog -/

/-- Text of the 38 tables of the catalog as the modelled emitter renders them,
one block per table in file order. -/
def emittedTables : List String := [
  "locations_default(\n" ++
    "  unique int id : @location_default,\n" ++
    "  int file : @file ref,\n" ++
    "  int beginLine : int ref,\n" ++
    "  int beginColumn : int ref,\n" ++
    "  int endLine : int ref,\n" ++
    "  int endColumn : int ref);\n\n",
  "numlines(\n" ++
    "  int element_id : @sourceline ref,\n" ++
    "  int num_lines : int ref,\n" ++
    "  int num_code : int ref,\n" ++
    "  int num_comment : int ref);\n\n",
  "files(\n" ++
    "  unique int id : @file,\n" ++
    "  string name : string ref,\n" ++
    "  string simple : string ref,\n" ++
    "  string ext : string ref,\n" ++
    "  int fromSource : int ref);\n\n",
  "folders(\n" ++
    "  unique int id : @folder,\n" ++
    "  string name : string ref,\n" ++
    "  string simple : string ref);\n\n",
  "containerparent(\n" ++
    "  int parent : @container ref,\n" ++
    "  unique int child : @container ref);\n\n",
  "has_location(\n" ++
    "  unique int locatable : @locatable ref,\n" ++
    "  int location : @location ref);\n\n",
  "comment_groups(\n" ++
    "  unique int id : @comment_group);\n\n",
  "comments(\n" ++
    "  unique int id : @comment,\n" ++
    "  int kind : int ref,\n" ++
    "  int parent : @comment_group ref,\n" ++
    "  int idx : int ref,\n" ++
    "  string text : string ref);\n\n",
  "doc_comments(\n" ++
    "  unique int node : @documentable ref,\n" ++
    "  int comment : @comment_group ref);\n\n",
  "#keyset[parent, idx]\n" ++
    "exprs(\n" ++
    "  unique int id : @expr,\n" ++
    "  int kind : int ref,\n" ++
    "  int parent : @exprparent ref,\n" ++
    "  int idx : int ref);\n\n",
  "literals(\n" ++
    "  unique int expr : @expr ref,\n" ++
    "  string value : string ref,\n" ++
    "  string raw : string ref);\n\n",
  "constvalues(\n" ++
    "  unique int expr : @expr ref,\n" ++
    "  string value : string ref,\n" ++
    "  string exact : string ref);\n\n",
  "fields(\n" ++
    "  unique int id : @field,\n" ++
    "  int parent : @fieldparent ref,\n" ++
    "  int idx : int ref);\n\n",
  "#keyset[parent, idx]\n" ++
    "stmts(\n" ++
    "  unique int id : @stmt,\n" ++
    "  int kind : int ref,\n" ++
    "  int parent : @stmtparent ref,\n" ++
    "  int idx : int ref);\n\n",
  "#keyset[parent, idx]\n" ++
    "decls(\n" ++
    "  unique int id : @decl,\n" ++
    "  int kind : int ref,\n" ++
    "  int parent : @declparent ref,\n" ++
    "  int idx : int ref);\n\n",
  "#keyset[parent, idx]\n" ++
    "specs(\n" ++
    "  unique int id : @spec,\n" ++
    "  int kind : int ref,\n" ++
    "  int parent : @gendecl ref,\n" ++
    "  int idx : int ref);\n\n",
  "scopes(\n" ++
    "  unique int id : @scope,\n" ++
    "  int kind : int ref);\n\n",
  "scopenesting(\n" ++
    "  unique int inner : @scope ref,\n" ++
    "  int outer : @scope ref);\n\n",
  "scopenodes(\n" ++
    "  unique int node : @scopenode ref,\n" ++
    "  int scope : @localscope ref);\n\n",
  "objects(\n" ++
    "  unique int id : @object,\n" ++
    "  int kind : int ref,\n" ++
    "  string name : string ref);\n\n",
  "objectscopes(\n" ++
    "  unique int object : @object ref,\n" ++
    "  int scope : @scope ref);\n\n",
  "objecttypes(\n" ++
    "  unique int object : @object ref,\n" ++
    "  int tp : @type ref);\n\n",
  "methodreceivers(\n" ++
    "  unique int method : @object ref,\n" ++
    "  int receiver : @object ref);\n\n",
  "fieldstructs(\n" ++
    "  unique int field : @object ref,\n" ++
    "  int struct : @structtype ref);\n\n",
  "methodhosts(\n" ++
    "  unique int method : @object ref,\n" ++
    "  int host : @namedtype ref);\n\n",
  "defs(\n" ++
    "  int ident : @ident ref,\n" ++
    "  int object : @object ref);\n\n",
  "uses(\n" ++
    "  int ident : @ident ref,\n" ++
    "  int object : @object ref);\n\n",
  "types(\n" ++
    "  unique int id : @type,\n" ++
    "  int kind : int ref);\n\n",
  "type_of(\n" ++
    "  unique int expr : @expr ref,\n" ++
    "  int tp : @type ref);\n\n",
  "typename(\n" ++
    "  unique int tp : @type ref,\n" ++
    "  string name : string ref);\n\n",
  "key_type(\n" ++
    "  unique int map : @maptype ref,\n" ++
    "  int tp : @type ref);\n\n",
  "element_type(\n" ++
    "  unique int container : @containertype ref,\n" ++
    "  int tp : @type ref);\n\n",
  "base_type(\n" ++
    "  unique int ptr : @pointertype ref,\n" ++
    "  int tp : @type ref);\n\n",
  "underlying_type(\n" ++
    "  unique int named : @namedtype ref,\n" ++
    "  int tp : @type ref);\n\n",
  "#keyset[parent, index]\n" ++
    "component_types(\n" ++
    "  int parent : @compositetype ref,\n" ++
    "  int index : int ref,\n" ++
    "  string name : string ref,\n" ++
    "  int tp : @type ref);\n\n",
  "array_length(\n" ++
    "  unique int tp : @arraytype ref,\n" ++
    "  string len : string ref);\n\n",
  "type_objects(\n" ++
    "  unique int tp : @type ref,\n" ++
    "  int object : @object ref);\n\n",
  "packages(\n" ++
    "  unique int id : @package,\n" ++
    "  string name : string ref,\n" ++
    "  string path : string ref,\n" ++
    "  int scope : @packagescope ref);\n\n"]

/-- Declaration lines of the 56 unions of the catalog as the modelled emitter
renders them, in declaration order. -/
def emittedUnions : List String := [
  "@container = @file | @folder;\n",
  "@locatable = @node | @localscope;\n",
  "@node = @documentable | @exprparent | @fieldparent | @stmtparent | " ++
    "@declparent | @scopenode | @comment_group | @comment;\n",
  "@documentable = @file | @field | @spec | @gendecl | @funcdecl;\n",
  "@exprparent = @funcdef | @file | @expr | @field | @stmt | @decl | @spec;\n",
  "@fieldparent = @decl | @structtypeexpr | @functypeexpr | @interfacetypeexpr;\n",
  "@stmtparent = @funcdef | @stmt | @decl;\n",
  "@declparent = @file | @declstmt;\n",
  "@funcdef = @funclit | @funcdecl;\n",
  "@scopenode = @file | @functypeexpr | @blockstmt | @ifstmt | @caseclause | " ++
    "@switchstmt | @commclause | @loopstmt;\n",
  "@basiclit = @intlit | @floatlit | @imaglit | @charlit | @stringlit;\n",
  "@operatorexpr = @logicalexpr | @arithmeticexpr | @bitwiseexpr | @unaryexpr | @binaryexpr;\n",
  "@logicalexpr = @logicalunaryexpr | @logicalbinaryexpr;\n",
  "@arithmeticexpr = @arithmeticunaryexpr | @arithmeticbinaryexpr;\n",
  "@bitwiseexpr = @bitwiseunaryexpr | @bitwisebinaryexpr;\n",
  "@unaryexpr = @logicalunaryexpr | @bitwiseunaryexpr | @arithmeticunaryexpr | " ++
    "@derefexpr | @addressexpr | @arrowexpr;\n",
  "@logicalunaryexpr = @notexpr;\n",
  "@bitwiseunaryexpr = @complementexpr;\n",
  "@arithmeticunaryexpr = @plusexpr | @minusexpr;\n",
  "@binaryexpr = @logicalbinaryexpr | @bitwisebinaryexpr | @arithmeticbinaryexpr | " ++
    "@comparison;\n",
  "@logicalbinaryexpr = @lorexpr | @landexpr;\n",
  "@bitwisebinaryexpr = @shiftexpr | @orexpr | @xorexpr | @andexpr | @andnotexpr;\n",
  "@arithmeticbinaryexpr = @addexpr | @subexpr | @mulexpr | @quoexpr | @remexpr;\n",
  "@shiftexpr = @shlexpr | @shrexpr;\n",
  "@comparison = @equalitytest | @relationalcomparison;\n",
  "@equalitytest = @eqlexpr | @neqexpr;\n",
  "@relationalcomparison = @lssexpr | @leqexpr | @gtrexpr | @geqexpr;\n",
  "@chantypeexpr = @sendchantypeexpr | @recvchantypeexpr | @sendrcvchantypeexpr;\n",
  "@incdecstmt = @incstmt | @decstmt;\n",
  "@assignment = @simpleassignstmt | @compoundassignstmt;\n",
  "@simpleassignstmt = @assignstmt | @definestmt;\n",
  "@compoundassignstmt = @addassignstmt | @subassignstmt | @mulassignstmt | " ++
    "@quoassignstmt | @remassignstmt | @andassignstmt | @orassignstmt | " ++
    "@xorassignstmt | @shlassignstmt | @shrassignstmt | @andnotassignstmt;\n",
  "@branchstmt = @breakstmt | @continuestmt | @gotostmt | @fallthroughstmt;\n",
  "@switchstmt = @exprswitchstmt | @typeswitchstmt;\n",
  "@loopstmt = @forstmt | @rangestmt;\n",
  "@gendecl = @importdecl | @constdecl | @typedecl | @vardecl;\n",
  "@declobject = @decltypeobject | @declconstobject | @declvarobject | @declfunctionobject;\n",
  "@builtinobject = @builtintypeobject | @builtinconstobject | @builtinfunctionobject;\n",
  "@typeobject = @decltypeobject | @builtintypeobject;\n",
  "@valueobject = @constobject | @varobject | @functionobject;\n",
  "@constobject = @declconstobject | @builtinconstobject;\n",
  "@varobject = @declvarobject;\n",
  "@functionobject = @declfunctionobject | @builtinfunctionobject;\n",
  "@basictype = @booltype | @numerictype | @stringtype | @literaltype | " ++
    "@invalidtype | @uintptrtype | @unsafepointertype;\n",
  "@booltype = @boolexprtype | @boolliteraltype;\n",
  "@numerictype = @integertype | @floattype | @complextype;\n",
  "@integertype = @signedintegertype | @unsignedintegertype;\n",
  "@signedintegertype = @inttype | @int8type | @int16type | @int32type | " ++
    "@int64type | @intliteraltype | @runeliteraltype;\n",
  "@unsignedintegertype = @uinttype | @uint8type | @uint16type | @uint32type | @uint64type;\n",
  "@floattype = @float32type | @float64type | @floatliteraltype;\n",
  "@complextype = @complex64type | @complex128type | @complexliteraltype;\n",
  "@stringtype = @stringexprtype | @stringliteraltype;\n",
  "@literaltype = @boolliteraltype | @intliteraltype | @runeliteraltype | " ++
    "@floatliteraltype | @complexliteraltype | @stringliteraltype | " ++
    "@nilliteraltype;\n",
  "@compositetype = @containertype | @structtype | @pointertype | @interfacetype | " ++
    "@tupletype | @signaturetype | @namedtype;\n",
  "@containertype = @arraytype | @slicetype | @maptype | @chantype;\n",
  "@chantype = @sendchantype | @recvchantype | @sendrcvchantype;\n"]

/-- Rendered items and union lines of a built registry, in emission order. -/
def emittedBlocks : Except SchemaError State → Option (List String × List String)
  | .ok st => some (st.schema.items.reverse.map (renderItem st.schema),
      st.schema.unions.map (renderUnion st.schema))
  | .error _ => none

/-- Tags, emission order and rendered text of a built registry, read off one
build. -/
def report : Except SchemaError State →
    Option ((List (List (String × Nat)) × List Item) × (List String × List String))
  | .ok st => some ((st.schema.cases.map CaseType.branches, st.schema.items.reverse),
      (st.schema.items.reverse.map (renderItem st.schema),
        st.schema.unions.map (renderUnion st.schema)))
  | .error _ => none

/-! ## Name comparison is equality -/

theorem char_toNat_bound (c : Char) : c.toNat + 1 < 8589934592 := by
  have h := UInt32.toNat_lt_size c.val
  have h2 : UInt32.size = 4294967296 := rfl
  have h3 : c.toNat = c.val.toNat := rfl
  omega

theorem char_toNat_inj {c d : Char} (h : c.toNat = d.toNat) : c = d := by
  apply Char.ext
  exact UInt32.toNat.inj h

theorem codeChars_inj : ∀ (l1 l2 : List Char), codeChars l1 = codeChars l2 → l1 = l2
  | [], [] => fun _ => rfl
  | [], d :: ds => fun h => by
    simp only [codeChars] at h
    omega
  | c :: cs, [] => fun h => by
    simp only [codeChars] at h
    omega
  | c :: cs, d :: ds => fun h => by
    simp only [codeChars] at h
    have hc := char_toNat_bound c
    have hd := char_toNat_bound d
    have h1 : c.toNat = d.toNat := by omega
    have h2 : codeChars cs = codeChars ds := by omega
    rw [char_toNat_inj h1, codeChars_inj cs ds h2]

theorem code_inj {a b : String} (h : code a = code b) : a = b := by
  cases a; cases b
  simp only [code] at h
  rw [codeChars_inj _ _ h]

theorem sameName_iff (a b : String) : sameName a b = true ↔ a = b := by
  constructor
  · intro h
    exact code_inj (Nat.eq_of_beq_eq_true h)
  · intro h
    subst h
    exact Nat.beq_refl _

theorem hasName_iff (l : List String) (n : String) : hasName l n = true ↔ n ∈ l := by
  unfold hasName
  rw [List.any_eq_true]
  constructor
  · rintro ⟨m, hm, h⟩
    rw [sameName_iff] at h
    exact h ▸ hm
  · intro h
    exact ⟨n, h, (sameName_iff n n).2 rfl⟩

theorem nodup_of_distinctNames : ∀ (l : List String), distinctNames l = true → l.Nodup
  | [], _ => List.nodup_nil
  | n :: ns, h => by
    simp only [distinctNames, Bool.and_eq_true, Bool.not_eq_true', ] at h
    refine List.nodup_cons.2 ⟨?_, nodup_of_distinctNames ns h.2⟩
    intro hn
    have := (hasName_iff ns n).2 hn
    rw [h.1] at this
    exact Bool.noConfusion this

/-! ## Declaration order -/

theorem backwardFrom_spec : ∀ (seen : List String) (ds : List Decl),
    backwardFrom seen ds = true →
    ∀ (pre : List Decl) (d : Decl) (post : List Decl), ds = pre ++ d :: post →
      ∀ r, r ∈ d.refs → r ∈ (pre.map Decl.varName).reverse ++ seen
  | seen, [], _, pre, d, post, h, _, _ => by
    cases pre <;> simp at h
  | seen, e :: es, hb, [], d, post, h, r, hr => by
    simp only [List.nil_append, List.cons.injEq] at h
    simp only [backwardFrom, Bool.and_eq_true, List.all_eq_true] at hb
    obtain ⟨rfl, -⟩ := h
    simpa using (hasName_iff seen r).1 (hb.1 r hr)
  | seen, e :: es, hb, p :: pre, d, post, h, r, hr => by
    simp only [List.cons_append, List.cons.injEq] at h
    simp only [backwardFrom, Bool.and_eq_true] at hb
    obtain ⟨rfl, h2⟩ := h
    have := backwardFrom_spec (e.varName :: seen) es hb.2 pre d post h2 r hr
    simp only [List.map_cons, List.reverse_cons, List.append_assoc, List.singleton_append]
    exact this

theorem pickReady_head (done : List String) (d : Decl) (ds : List Decl)
    (h : d.refs.all (hasName done) = true) : pickReady done (d :: ds) = some (d, ds) := by
  simp only [pickReady, h, if_true]

theorem initOrder_of_backward : ∀ (ds : List Decl) (fuel : Nat) (done : List String),
    ds.length ≤ fuel → backwardFrom done ds = true →
    initOrder fuel done ds = ds.map Decl.varName
  | [], 0, _, _, _ => rfl
  | [], fuel + 1, done, _, _ => by simp [initOrder, pickReady]
  | d :: ds, 0, _, h, _ => by simp at h
  | d :: ds, fuel + 1, done, h, hb => by
    simp only [backwardFrom, Bool.and_eq_true] at hb
    simp only [initOrder, pickReady_head done d ds hb.1, List.map_cons]
    rw [initOrder_of_backward ds fuel (d.varName :: done) (by simpa using h) hb.2]

/-! ## Graph lemmas -/

theorem transGen_head_iff {α : Type} (r : α → α → Prop) (a c : α) :
    Relation.TransGen r a c ↔ ∃ b, r a b ∧ (b = c ∨ Relation.TransGen r b c) := by
  constructor
  · intro h
    obtain ⟨b, hab, hbc⟩ := Relation.TransGen.head'_iff.1 h
    refine ⟨b, hab, ?_⟩
    rcases Relation.reflTransGen_iff_eq_or_transGen.1 hbc with h1 | h1
    · exact Or.inl h1.symm
    · exact Or.inr h1
  · rintro ⟨b, hab, rfl | hbc⟩
    · exact Relation.TransGen.single hab
    · exact Relation.TransGen.head hab hbc

theorem visitAll_ok (f : String → Outcome) (T : String → String → Prop) :
    ∀ (ps : List String),
    (∀ p, p ∈ ps → ∃ r, f p = some (.ok r) ∧ ∀ u, u ∈ r ↔ T p u) →
    ∃ rs, visitAll f ps = some (.ok rs) ∧ ∀ u, u ∈ rs ↔ ∃ p, p ∈ ps ∧ (p = u ∨ T p u)
  | [], _ => ⟨[], rfl, by simp⟩
  | p :: ps, h => by
    obtain ⟨r, hr, hru⟩ := h p (List.mem_cons_self _ _)
    obtain ⟨rs, hrs, hrsu⟩ := visitAll_ok f T ps (fun q hq => h q (List.mem_cons_of_mem _ hq))
    refine ⟨p :: r ++ rs, by simp only [visitAll, hr, hrs], ?_⟩
    intro u
    simp only [List.cons_append, List.mem_cons, List.mem_append, hru, hrsu]
    constructor
    · rintro (h1 | h1 | ⟨q, hq, h1⟩)
      · exact ⟨p, Or.inl rfl, Or.inl h1.symm⟩
      · exact ⟨p, Or.inl rfl, Or.inr h1⟩
      · exact ⟨q, Or.inr hq, h1⟩
    · rintro ⟨q, rfl | hq, h1⟩
      · rcases h1 with h1 | h1
        · exact Or.inl h1.symm
        · exact Or.inr (Or.inl h1)
      · exact Or.inr (Or.inr ⟨q, hq, h1⟩)

theorem visit_ok (sup : String → List String) (rho : String → Nat)
    (hrho : ∀ a b, b ∈ sup a → rho b < rho a) :
    ∀ (fuel : Nat) (path : List String) (n : String),
    rho n < fuel → (∀ x, x ∈ path → rho n < rho x) →
    ∃ r, visit sup fuel path n = some (.ok r) ∧
      ∀ u, u ∈ r ↔ Relation.TransGen (fun x y => y ∈ sup x) n u
  | 0, _, _, h, _ => by simp at h
  | fuel + 1, path, n, hf, hp => by
    have hnot : hasName path n = false := by
      cases hh : hasName path n
      · rfl
      · have := hp n ((hasName_iff path n).1 hh)
        omega
    have hrec : ∀ p, p ∈ sup n → ∃ r, visit sup fuel (n :: path) p = some (.ok r) ∧
        ∀ u, u ∈ r ↔ Relation.TransGen (fun x y => y ∈ sup x) p u := by
      intro p hpn
      have h1 := hrho n p hpn
      apply visit_ok sup rho hrho fuel (n :: path) p (by omega)
      intro x hx
      rcases List.mem_cons.1 hx with rfl | hx
      · exact h1
      · exact Nat.lt_trans h1 (hp x hx)
    obtain ⟨rs, hrs, hrsu⟩ := visitAll_ok (visit sup fuel (n :: path))
      (fun p u => Relation.TransGen (fun x y => y ∈ sup x) p u) (sup n) hrec
    refine ⟨rs, by simp [visit, hnot, hrs], ?_⟩
    intro u
    rw [hrsu, transGen_head_iff]

theorem closeAll_ok (f : String → Outcome) :
    ∀ (ns : List String), (∀ n, ∃ r, f n = some (.ok r)) →
    ∃ rs, closeAll f ns = some (.ok rs) ∧ rs.map Prod.fst = ns
  | [], _ => ⟨[], rfl, rfl⟩
  | n :: ns, h => by
    obtain ⟨r, hr⟩ := h n
    obtain ⟨rs, hrs, hm⟩ := closeAll_ok f ns h
    exact ⟨(n, r) :: rs, by simp only [closeAll, hr, hrs], by simp [hm]⟩

/-! ## Declared supertypes come first -/

theorem supersBefore_spec (ds : List Decl) : ∀ (seen : List String) (ts : List TypeDecl),
    supersBefore ds seen ts = true →
    ∀ (pre : List TypeDecl) (t : TypeDecl) (post : List TypeDecl), ts = pre ++ t :: post →
      ∀ v, v ∈ t.parents → ∀ b, nameOfVar ds v = some b →
        b ∈ (pre.map TypeDecl.name).reverse ++ seen
  | seen, [], _, pre, t, post, h, _, _, _, _ => by
    cases pre <;> simp at h
  | seen, e :: es, hb, [], t, post, h, v, hv, b, hvb => by
    simp only [List.nil_append, List.cons.injEq] at h
    simp only [supersBefore, Bool.and_eq_true, List.all_eq_true] at hb
    obtain ⟨rfl, -⟩ := h
    have := hb.1 v hv
    rw [hvb] at this
    simpa using (hasName_iff seen b).1 this
  | seen, e :: es, hb, p :: pre, t, post, h, v, hv, b, hvb => by
    simp only [List.cons_append, List.cons.injEq] at h
    simp only [supersBefore, Bool.and_eq_true] at hb
    obtain ⟨rfl, h2⟩ := h
    have := supersBefore_spec ds (e.name :: seen) es hb.2 pre t post h2 v hv b hvb
    simp only [List.map_cons, List.reverse_cons, List.append_assoc, List.singleton_append]
    exact this

theorem isSuper_iff (ds : List Decl) (a b : String) :
    IsSuper ds a b ↔ ∃ t, t ∈ typeDecls ds ∧ t.name = a ∧
      ∃ v, v ∈ t.parents ∧ nameOfVar ds v = some b := by
  unfold IsSuper supersOf
  simp only [List.mem_flatMap, List.mem_filter, List.mem_filterMap, sameName_iff]
  constructor
  · rintro ⟨t, ⟨ht, hn⟩, v, hv, hvb⟩
    exact ⟨t, ht, hn, v, hv, hvb⟩
  · rintro ⟨t, ht, hn, v, hv, hvb⟩
    exact ⟨t, ⟨ht, hn⟩, v, hv, hvb⟩

theorem rank_lt_of_isSuper (ds : List Decl)
    (hnd : (typeNames ds).Nodup) (hsb : supersBefore ds [] (typeDecls ds) = true)
    (a b : String) (h : IsSuper ds a b) : rank ds b < rank ds a := by
  obtain ⟨t, ht, rfl, v, hv, hvb⟩ := (isSuper_iff ds _ b).1 h
  obtain ⟨pre, post, hsplit⟩ := List.append_of_mem ht
  have hb := supersBefore_spec ds [] _ hsb pre t post hsplit v hv b hvb
  simp only [List.append_nil, List.mem_reverse] at hb
  have hnames : typeNames ds = pre.map TypeDecl.name ++ t.name :: post.map TypeDecl.name := by
    simp [typeNames, hsplit]
  unfold rank
  rw [hnames] at hnd ⊢
  have hnot : t.name ∉ pre.map TypeDecl.name := by
    intro hin
    have := List.disjoint_of_nodup_append hnd hin
    exact this (List.mem_cons_self _ _)
  rw [List.indexOf_append_of_mem hb, List.indexOf_append_of_not_mem hnot,
    List.indexOf_cons_self]
  have := List.indexOf_lt_length.2 hb
  omega

theorem rank_lt_of_member (ds : List Decl)
    (hr : ∀ a b, IsSuper ds a b → rank ds b < rank ds a) (a b : String)
    (h : Member ds a b) : rank ds b < rank ds a := by
  induction h with
  | single hab => exact hr _ _ hab
  | tail _ hbc ih => exact Nat.lt_trans (hr _ _ hbc) ih

/-! ## Descendant sets -/

theorem hasSuperIn_spec (ds : List Decl) (D : List String) (t : TypeDecl) :
    hasSuperIn ds D t = true ↔
      ∃ v, v ∈ t.parents ∧ ∃ b, nameOfVar ds v = some b ∧ b ∈ D := by
  unfold hasSuperIn
  rw [List.any_eq_true]
  constructor
  · rintro ⟨v, hv, h⟩
    cases hn : nameOfVar ds v with
    | none => rw [hn] at h; cases h
    | some b =>
      rw [hn] at h
      exact ⟨v, hv, b, hn, (hasName_iff D b).1 h⟩
  · rintro ⟨v, hv, b, hn, hb⟩
    refine ⟨v, hv, ?_⟩
    rw [hn]
    exact (hasName_iff D b).2 hb

theorem sealed_step (ds : List Decl) (skip D : List String)
    (hs : sealedOutside ds skip D = true) (a b : String)
    (h : IsSuperSkip ds skip a b) (hb : b ∈ D) : a ∈ D := by
  obtain ⟨hab, hskip⟩ := h
  obtain ⟨t, ht, rfl, v, hv, hvb⟩ := (isSuper_iff ds _ b).1 hab
  unfold sealedOutside at hs
  rw [List.all_eq_true] at hs
  have h1 := hs t ht
  rw [Bool.or_eq_true] at h1
  rcases h1 with h1 | h1
  · exact (hasName_iff D _).1 h1
  · rw [List.all_eq_true] at h1
    have h2 := h1 v hv
    rw [hvb] at h2
    rw [Bool.or_eq_true] at h2
    rcases h2 with h2 | h2
    · exact absurd ((hasName_iff skip b).1 h2) hskip
    · rw [(hasName_iff D b).2 hb] at h2
      cases h2

theorem sealed_reach (ds : List Decl) (skip D : List String)
    (hs : sealedOutside ds skip D = true) (a b : String)
    (h : Relation.TransGen (IsSuperSkip ds skip) a b) (hb : b ∈ D) : a ∈ D := by
  induction h using Relation.TransGen.head_induction_on with
  | base hab => exact sealed_step ds skip D hs _ _ hab hb
  | ih hab _ ih => exact sealed_step ds skip D hs _ _ hab ih

theorem member_skip_nil (ds : List Decl) (a b : String) (h : Member ds a b) :
    Relation.TransGen (IsSuperSkip ds []) a b :=
  Relation.TransGen.mono (fun _ _ hxy => ⟨hxy, List.not_mem_nil _⟩) h

theorem linked_reach (ds : List Decl)
    (hr : ∀ a b, IsSuper ds a b → rank ds b < rank ds a) (target : String) (D : List String)
    (hD : D.all (hasName (typeNames ds)) = true) (hl : linked ds target D = true) :
    ∀ (n : Nat) (a : String), rank ds a ≤ n → a ∈ D → a = target ∨ Member ds a target := by
  intro n
  induction n with
  | zero =>
    intro a hn ha
    rw [List.all_eq_true] at hD
    have hmem := (hasName_iff _ a).1 (hD a ha)
    obtain ⟨t, ht, rfl⟩ := List.mem_map.1 hmem
    unfold linked at hl
    rw [List.all_eq_true] at hl
    have h1 := hl t ht
    rw [(hasName_iff D _).2 ha] at h1
    simp only [Bool.not_true, Bool.false_or, Bool.or_eq_true] at h1
    rcases h1 with h1 | h1
    · exact Or.inl ((sameName_iff _ _).1 h1)
    · obtain ⟨v, hv, b, hvb, -⟩ := (hasSuperIn_spec ds D t).1 h1
      have := hr t.name b ((isSuper_iff ds _ b).2 ⟨t, ht, rfl, v, hv, hvb⟩)
      omega
  | succ n ih =>
    intro a hn ha
    rw [List.all_eq_true] at hD
    have hmem := (hasName_iff _ a).1 (hD a ha)
    obtain ⟨t, ht, rfl⟩ := List.mem_map.1 hmem
    unfold linked at hl
    rw [List.all_eq_true] at hl
    have h1 := hl t ht
    rw [(hasName_iff D _).2 ha] at h1
    simp only [Bool.not_true, Bool.false_or, Bool.or_eq_true] at h1
    rcases h1 with h1 | h1
    · exact Or.inl ((sameName_iff _ _).1 h1)
    · obtain ⟨v, hv, b, hvb, hbD⟩ := (hasSuperIn_spec ds D t).1 h1
      have hab : IsSuper ds t.name b := (isSuper_iff ds _ b).2 ⟨t, ht, rfl, v, hv, hvb⟩
      have hlt := hr t.name b hab
      rcases ih b (by omega) hbD with rfl | hb
      · exact Or.inr (Relation.TransGen.single hab)
      · exact Or.inr (Relation.TransGen.head hab hb)

theorem descendants_iff (ds : List Decl)
    (hr : ∀ a b, IsSuper ds a b → rank ds b < rank ds a) (target : String) (D : List String)
    (hs : sealedOutside ds [] D = true) (hD : D.all (hasName (typeNames ds)) = true)
    (hl : linked ds target D = true) (ht : target ∈ D) (a : String) :
    (a = target ∨ Member ds a target) ↔ a ∈ D := by
  constructor
  · rintro (rfl | h)
    · exact ht
    · exact sealed_reach ds [] D hs a target (member_skip_nil ds a target h) ht
  · intro ha
    exact linked_reach ds hr target D hD hl (rank ds a) a (Nat.le_refl _) ha

theorem not_member_self (ds : List Decl)
    (hr : ∀ a b, IsSuper ds a b → rank ds b < rank ds a) (a : String) : ¬ Member ds a a := by
  intro h
  have := rank_lt_of_member ds hr a a h
  omega

theorem rank_le (ds : List Decl) (n : String) : rank ds n ≤ (typeNames ds).length :=
  List.indexOf_le_length

theorem closureOf_ok (ds : List Decl)
    (hr : ∀ a b, IsSuper ds a b → rank ds b < rank ds a) (n : String) :
    ∃ r, closureOf ds n = some (.ok r) ∧ ∀ u, u ∈ r ↔ Member ds n u :=
  visit_ok (supersOf ds) (rank ds) hr ((typeNames ds).length + 1) [] n
    (Nat.lt_succ_of_le (rank_le ds n)) (fun x hx => absurd hx (List.not_mem_nil x))

theorem close_ok (ds : List Decl)
    (hr : ∀ a b, IsSuper ds a b → rank ds b < rank ds a) :
    ∃ rs, close ds = some (.ok rs) ∧ rs.map Prod.fst = typeNames ds :=
  closeAll_ok (closureOf ds) (typeNames ds) (fun n => (closureOf_ok ds hr n).imp (fun _ h => h.1))

theorem supersOf_wf (ds : List Decl)
    (hr : ∀ a b, IsSuper ds a b → rank ds b < rank ds a) :
    WellFounded (fun b a => IsSuper ds a b) :=
  Subrelation.wf (fun {b a} (h : IsSuper ds a b) => hr a b h)
    (InvImage.wf (rank ds) Nat.lt_wfRel.wf)

theorem isSuper_iff_mem_filter (ds : List Decl) (u m : String) :
    IsSuper ds m u ↔ m ∈ ((typeDecls ds).filter (hasSuperIn ds [u])).map TypeDecl.name := by
  rw [isSuper_iff, List.mem_map]
  constructor
  · rintro ⟨t, ht, hn, v, hv, hvb⟩
    refine ⟨t, List.mem_filter.2 ⟨ht, ?_⟩, hn⟩
    exact (hasSuperIn_spec ds [u] t).2 ⟨v, hv, u, hvb, List.mem_singleton_self u⟩
  · rintro ⟨t, ht, hn⟩
    obtain ⟨ht1, ht2⟩ := List.mem_filter.1 ht
    obtain ⟨v, hv, b, hvb, hb⟩ := (hasSuperIn_spec ds [u] t).1 ht2
    rw [List.mem_singleton] at hb
    subst hb
    exact ⟨t, ht1, hn, v, hv, hvb⟩

theorem not_member_of_top (ds : List Decl) (a b : String) (h : supersOf ds a = []) :
    ¬ Member ds a b := by
  intro hm
  obtain ⟨c, hc, -⟩ := (transGen_head_iff (IsSuper ds) a b).1 hm
  unfold IsSuper at hc
  rw [h] at hc
  cases hc

theorem member_via_single (ds : List Decl) (a p b : String) (h : supersOf ds a = [p]) :
    Member ds a b ↔ p = b ∨ Member ds p b := by
  unfold Member
  rw [transGen_head_iff]
  constructor
  · rintro ⟨c, hc, h2⟩
    unfold IsSuper at hc
    rw [h, List.mem_singleton] at hc
    subst hc
    exact h2
  · intro h2
    refine ⟨p, ?_, h2⟩
    unfold IsSuper
    rw [h]
    exact List.mem_singleton_self p

theorem sameName_false {a b : String} (h : sameName a b = false) : a ≠ b := by
  intro e
  rw [(sameName_iff a b).2 e] at h
  cases h

theorem hasName_false {l : List String} {n : String} (h : hasName l n = false) : n ∉ l := by
  intro e
  rw [(hasName_iff l n).2 e] at h
  cases h

theorem hasName_congr {l1 l2 : List String} {n : String} (h : hasName l1 n = hasName l2 n) :
    n ∈ l1 ↔ n ∈ l2 := by
  rw [← hasName_iff l1 n, ← hasName_iff l2 n, h]

theorem member_of_below {ds : List Decl} {a t : String} {D : List String}
    (h : (a = t ∨ Member ds a t) ↔ a ∈ D) (hne : a ≠ t) : Member ds a t ↔ a ∈ D := by
  rw [← h]
  exact ⟨Or.inr, fun h1 => h1.resolve_left hne⟩

/-! ## Direct members -/

theorem mem_directMembers (ds : List Decl) (u m : String) :
    m ∈ directMembers ds u ↔ IsSuper ds m u :=
  (isSuper_iff_mem_filter ds u m).symm

theorem directMembers_nodup (ds : List Decl) (hnd : (typeNames ds).Nodup) (u : String) :
    (directMembers ds u).Nodup :=
  List.Nodup.sublist (List.Sublist.map TypeDecl.name (List.filter_sublist _)) hnd

theorem isNamedAsSuper_spec (ds : List Decl) (t : TypeDecl)
    (h : isNamedAsSuper ds t = true) : ∃ m, IsSuper ds m t.name := by
  unfold isNamedAsSuper at h
  rw [Bool.and_eq_true, List.any_eq_true] at h
  obtain ⟨h1, s, hs, h2⟩ := h
  cases hn : nameOfVar ds t.holder with
  | none => rw [hn] at h1; cases h1
  | some n =>
    rw [hn] at h1
    have hname : n = t.name := (sameName_iff _ _).1 h1
    subst hname
    exact ⟨s.name, (isSuper_iff ds _ _).2
      ⟨s, hs, rfl, t.holder, (hasName_iff _ _).1 h2, hn⟩⟩

/-! ## Evaluating the catalog -/

theorem catalog_typeNames_distinct : distinctNames (typeNames catalog) = true := by decide!

theorem catalog_typeNames_nodup : (typeNames catalog).Nodup :=
  nodup_of_distinctNames _ catalog_typeNames_distinct

theorem catalog_backward : backwardFrom [] catalog = true := by decide!

theorem catalog_supersBefore : supersBefore catalog [] (typeDecls catalog) = true := by decide!

theorem summary_eq_report (r : Except SchemaError State) :
    summary r = (report r).map Prod.fst := by
  cases r <;> rfl

theorem emittedBlocks_eq_report (r : Except SchemaError State) :
    emittedBlocks r = (report r).map Prod.snd := by
  cases r <;> rfl

theorem catalog_build_report :
    report (build catalog)
      = some (((caseVars catalog).map (positionalTags catalog), declaredItems catalog),
          (defaultSnippetText :: emittedTables, emittedUnions)) := by
  decide!

theorem catalog_build_summary :
    summary (build catalog)
      = some ((caseVars catalog).map (positionalTags catalog), declaredItems catalog) := by
  rw [summary_eq_report, catalog_build_report]
  rfl

theorem catalog_build_blocks :
    emittedBlocks (build catalog)
      = some (defaultSnippetText :: emittedTables, emittedUnions) := by
  rw [emittedBlocks_eq_report, catalog_build_report]
  rfl

theorem catalog_build_ok : ∃ st, build catalog = .ok st := by
  have h := catalog_build_summary
  cases hb : build catalog with
  | ok st => exact ⟨st, rfl⟩
  | error e =>
    rw [hb] at h
    simp [summary] at h

theorem catalog_build_tags :
    tagTable (build catalog) = some ((caseVars catalog).map (positionalTags catalog)) := by
  have h := catalog_build_summary
  obtain ⟨st, hst⟩ := catalog_build_ok
  rw [hst] at h ⊢
  simp only [summary, Option.some.injEq, Prod.mk.injEq] at h
  simp only [tagTable, h.1]

theorem catalog_build_ne_error (e : SchemaError) : build catalog ≠ .error e := by
  obtain ⟨st, hst⟩ := catalog_build_ok
  rw [hst]
  intro h
  cases h

theorem catalog_rank_lt (a b : String) (h : IsSuper catalog a b) :
    rank catalog b < rank catalog a :=
  rank_lt_of_isSuper catalog catalog_typeNames_nodup catalog_supersBefore a b h

theorem below_node (a : String) :
    (a = "@node" ∨ Member catalog a "@node") ↔ a ∈ belowNode :=
  descendants_iff catalog catalog_rank_lt "@node" belowNode (by decide!) (by decide!)
    (by decide!) (by decide!) a

theorem below_locatable (a : String) :
    (a = "@locatable" ∨ Member catalog a "@locatable") ↔ a ∈ belowLocatable :=
  descendants_iff catalog catalog_rank_lt "@locatable" belowLocatable (by decide!) (by decide!)
    (by decide!) (by decide!) a

theorem below_unaryExpr (a : String) :
    (a = "@unaryexpr" ∨ Member catalog a "@unaryexpr") ↔ a ∈ belowUnaryExpr :=
  descendants_iff catalog catalog_rank_lt "@unaryexpr" belowUnaryExpr (by decide!) (by decide!)
    (by decide!) (by decide!) a

theorem below_binaryExpr (a : String) :
    (a = "@binaryexpr" ∨ Member catalog a "@binaryexpr") ↔ a ∈ belowBinaryExpr :=
  descendants_iff catalog catalog_rank_lt "@binaryexpr" belowBinaryExpr (by decide!)
    (by decide!) (by decide!) (by decide!) a

theorem below_operatorExpr (a : String) :
    (a = "@operatorexpr" ∨ Member catalog a "@operatorexpr") ↔ a ∈ belowOperatorExpr :=
  descendants_iff catalog catalog_rank_lt "@operatorexpr" belowOperatorExpr (by decide!)
    (by decide!) (by decide!) (by decide!) a

theorem below_basicType (a : String) :
    (a = "@basictype" ∨ Member catalog a "@basictype") ↔ a ∈ belowBasicType :=
  descendants_iff catalog catalog_rank_lt "@basictype" belowBasicType (by decide!)
    (by decide!) (by decide!) (by decide!) a

theorem below_compositeType (a : String) :
    (a = "@compositetype" ∨ Member catalog a "@compositetype") ↔ a ∈ belowCompositeType :=
  descendants_iff catalog catalog_rank_lt "@compositetype" belowCompositeType (by decide!)
    (by decide!) (by decide!) (by decide!) a

/-! ## Claims -/

/-- C1: the engine gives the k-th `NewBranch` call on a case type (counting
from 0 in lexical order) the tag k, so the eight case types of the catalog have
the tags 0..N-1 in declaration order, without repetition, with N = 2, 52, 37,
6, 3, 9, 3 and 38; the entries of the six map literals are numbered in lexical
order, and declarations in between consume no tag. -/
theorem C1_positional_tags :
    caseVars catalog = ["CommentKind", "ExprKind", "StmtKind", "DeclKind", "SpecKind",
      "ObjectKind", "ScopeKind", "TypeKind"] ∧
    (∃ t, tagTable (build catalog) = some t ∧
      t = (caseVars catalog).map (positionalTags catalog) ∧
      t.map (fun b => b.map Prod.snd) = [List.range 2, List.range 52, List.range 37,
        List.range 6, List.range 3, List.range 9, List.range 3, List.range 38] ∧
      List.Forall (fun b => (b.map Prod.snd).Nodup) t) ∧
    ((positionalTags catalog "ExprKind").drop 23).take 7
      = numberFrom 23 (mapEntries catalog "UnaryExprs") ∧
    ((positionalTags catalog "ExprKind").drop 30).take 19
      = numberFrom 30 (mapEntries catalog "BinaryExprs") ∧
    ((positionalTags catalog "ExprKind").drop 49).take 3
      = numberFrom 49 (mapEntries catalog "ChanTypeExprs") ∧
    ((positionalTags catalog "StmtKind").drop 24).take 13
      = numberFrom 24 (mapEntries catalog "AssignStmtTypes") ∧
    (positionalTags catalog "TypeKind").take 26
      = numberFrom 0 (mapEntries catalog "BasicTypes") ∧
    ((positionalTags catalog "TypeKind").drop 34).take 3
      = numberFrom 34 (mapEntries catalog "ChanTypes") ∧
    (positionalTags catalog "ExprKind").filter
        (fun p => hasName ["@badexpr", "@starexpr", "@keyvalueexpr", "@plusexpr", "@lorexpr",
          "@sendrcvchantypeexpr"] p.1)
      = [("@badexpr", 0), ("@starexpr", 16), ("@keyvalueexpr", 17), ("@plusexpr", 23),
          ("@lorexpr", 30), ("@sendrcvchantypeexpr", 51)] ∧
    (positionalTags catalog "StmtKind").getLast? = some ("@andnotassignstmt", 36) ∧
    (positionalTags catalog "TypeKind").getLast? = some ("@namedtype", 37) := by
  have hr : ((caseVars catalog).map (positionalTags catalog)).map (fun b => b.map Prod.snd)
      = [List.range 2, List.range 52, List.range 37, List.range 6, List.range 3,
        List.range 9, List.range 3, List.range 38] := by decide!
  refine ⟨by decide!, ⟨_, catalog_build_tags, rfl, hr, ?_⟩,
    by decide!, by decide!, by decide!, by decide!, by decide!, by decide!, by decide!,
    by decide!, by decide!⟩
  rw [List.forall_iff_forall_mem]
  intro b hb
  have hmem : b.map Prod.snd ∈
      ((caseVars catalog).map (positionalTags catalog)).map (fun b => b.map Prod.snd) :=
    List.mem_map_of_mem _ hb
  rw [hr] at hmem
  simp only [List.mem_cons, List.mem_singleton, List.not_mem_nil, or_false] at hmem
  rcases hmem with h | h | h | h | h | h | h | h <;> rw [h] <;> exact List.nodup_range _

/-- C2: the primary-key types that belong to `@locatable` are exactly `@file`,
`@comment_group`, `@comment`, `@expr`, `@field`, `@stmt`, `@decl` and `@spec`;
the same eight are the primary-key types that belong to `@node`; none of them
reaches `@locatable` once the edges into `@node` are removed; the other six
primary-key types belong to neither union. -/
theorem C2_locatable_primary_keys :
    namesOfVariant catalog .primaryKey = ["@location_default", "@file", "@folder",
      "@comment_group", "@comment", "@expr", "@field", "@stmt", "@decl", "@spec", "@type",
      "@object", "@scope", "@package"] ∧
    (∀ m, m ∈ namesOfVariant catalog .primaryKey →
      (Member catalog m "@locatable" ↔ m ∈ ["@file", "@comment_group", "@comment", "@expr",
        "@field", "@stmt", "@decl", "@spec"]) ∧
      (Member catalog m "@node" ↔ m ∈ ["@file", "@comment_group", "@comment", "@expr",
        "@field", "@stmt", "@decl", "@spec"]) ∧
      ¬ IsSuper catalog m "@locatable" ∧
      ¬ Relation.TransGen (IsSuperSkip catalog ["@node"]) m "@locatable") ∧
    (∀ m, m ∈ ["@location_default", "@folder", "@type", "@object", "@scope", "@package"] →
      ¬ Member catalog m "@locatable" ∧ ¬ Member catalog m "@node") := by
  have hpk : namesOfVariant catalog .primaryKey = ["@location_default", "@file", "@folder",
      "@comment_group", "@comment", "@expr", "@field", "@stmt", "@decl", "@spec", "@type",
      "@object", "@scope", "@package"] := by decide!
  have hsets : ∀ m, m ∈ ["@location_default", "@file", "@folder",
      "@comment_group", "@comment", "@expr", "@field", "@stmt", "@decl", "@spec", "@type",
      "@object", "@scope", "@package"] →
      (m ∈ belowLocatable ↔ m ∈ ["@file", "@comment_group", "@comment", "@expr",
        "@field", "@stmt", "@decl", "@spec"]) ∧
      (m ∈ belowNode ↔ m ∈ ["@file", "@comment_group", "@comment", "@expr",
        "@field", "@stmt", "@decl", "@spec"]) ∧
      m ≠ "@locatable" ∧ m ≠ "@node" ∧ m ∉ ["@locatable", "@node", "@localscope"] := by
    decide!
  have hseal : sealedOutside catalog ["@node"] ["@locatable", "@node", "@localscope"] = true := by
    decide!
  have hskip : ∀ m, m ∉ ["@locatable", "@node", "@localscope"] →
      ¬ Relation.TransGen (IsSuperSkip catalog ["@node"]) m "@locatable" := by
    intro m hm h
    exact hm (sealed_reach catalog ["@node"] _ hseal m "@locatable" h (by decide))
  have hmain : ∀ m, m ∈ ["@location_default", "@file", "@folder",
      "@comment_group", "@comment", "@expr", "@field", "@stmt", "@decl", "@spec", "@type",
      "@object", "@scope", "@package"] →
      (Member catalog m "@locatable" ↔ m ∈ ["@file", "@comment_group", "@comment", "@expr",
        "@field", "@stmt", "@decl", "@spec"]) ∧
      (Member catalog m "@node" ↔ m ∈ ["@file", "@comment_group", "@comment", "@expr",
        "@field", "@stmt", "@decl", "@spec"]) ∧
      ¬ IsSuper catalog m "@locatable" ∧
      ¬ Relation.TransGen (IsSuperSkip catalog ["@node"]) m "@locatable" := by
    intro m hm
    obtain ⟨h1, h2, h3, h4, h5⟩ := hsets m hm
    have hL : Member catalog m "@locatable" ↔ m ∈ belowLocatable := by
      rw [← below_locatable m]
      exact ⟨Or.inr, fun h => h.resolve_left h3⟩
    have hN : Member catalog m "@node" ↔ m ∈ belowNode := by
      rw [← below_node m]
      exact ⟨Or.inr, fun h => h.resolve_left h4⟩
    refine ⟨hL.trans h1, hN.trans h2, ?_, hskip m h5⟩
    intro hd
    exact hskip m h5 (Relation.TransGen.single ⟨hd, by decide⟩)
  refine ⟨hpk, ?_, ?_⟩
  · rw [hpk]
    exact hmain
  · intro m hm
    have hm2 : m ∈ ["@location_default", "@file", "@folder",
      "@comment_group", "@comment", "@expr", "@field", "@stmt", "@decl", "@spec", "@type",
      "@object", "@scope", "@package"] := by
      revert m
      decide
    have hno : m ∉ ["@file", "@comment_group", "@comment", "@expr",
        "@field", "@stmt", "@decl", "@spec"] := by
      revert m
      decide
    obtain ⟨h1, h2, -, -⟩ := hmain m hm2
    exact ⟨fun h => hno (h1.1 h), fun h => hno (h2.1 h)⟩

/-- C3: the names of all 222 types declared in the catalog (56 unions, 14
primary-key types, 2 aliases and 150 branches) are pairwise distinct, and
building the catalog does not fail with `DuplicateName`. -/
theorem C3_type_names_distinct :
    (typeNames catalog).Nodup ∧
    [Variant.union, Variant.primaryKey, Variant.alias, Variant.branch].map
      (fun k => (namesOfVariant catalog k).length) = [56, 14, 2, 150] ∧
    (typeNames catalog).length = 222 ∧
    (∀ n, build catalog ≠ .error (.DuplicateName n)) :=
  ⟨catalog_typeNames_nodup, by decide!, by decide!,
    fun n => catalog_build_ne_error (.DuplicateName n)⟩

/-- C4: every Go variable mentioned by a declaration of the catalog is
declared textually earlier; hence Go initialises the variables in file order,
every declared supertype of a type is declared before it, and building the
catalog does not fail with `UnknownTypeReference`. -/
theorem C4_references_point_backwards :
    (∀ (pre : List Decl) (d : Decl) (post : List Decl), catalog = pre ++ d :: post →
      ∀ r, r ∈ d.refs → r ∈ pre.map Decl.varName) ∧
    initOrder catalog.length [] catalog = catalog.map Decl.varName ∧
    (∀ a b, IsSuper catalog a b → rank catalog b < rank catalog a) ∧
    (∀ r, build catalog ≠ .error (.UnknownTypeReference r)) := by
  refine ⟨?_, initOrder_of_backward catalog _ [] (Nat.le_refl _) catalog_backward,
    catalog_rank_lt, fun r => catalog_build_ne_error (.UnknownTypeReference r)⟩
  intro pre d post h r hr
  have := backwardFrom_spec [] catalog catalog_backward pre d post h r hr
  simpa using this

/-- C5: the declared supertype relation of the catalog has no cycle and is
well-founded; the traversal of `close()` returns, for every type, exactly the
unions it transitively belongs to, and the validation of the catalog succeeds,
so it never reports `CyclicUnion`. -/
theorem C5_supertypes_acyclic :
    (∀ a, ¬ Member catalog a a) ∧
    WellFounded (fun b a => IsSuper catalog a b) ∧
    (∀ n, ∃ r, closureOf catalog n = some (.ok r) ∧ ∀ u, u ∈ r ↔ Member catalog n u) ∧
    (∃ rs, close catalog = some (.ok rs) ∧ rs.map Prod.fst = typeNames catalog) ∧
    (∀ p, close catalog ≠ some (.error (.CyclicUnion p))) := by
  refine ⟨not_member_self catalog catalog_rank_lt, supersOf_wf catalog catalog_rank_lt,
    closureOf_ok catalog catalog_rank_lt, close_ok catalog catalog_rank_lt, ?_⟩
  intro p h
  obtain ⟨rs, hrs, -⟩ := close_ok catalog catalog_rank_lt
  rw [hrs] at h
  cases h

/-- C6: each of the 14 primary-key types is the type of the `Key` column of
exactly one table, the 14 tables are distinct, and every `Key` column of the
catalog is an entity column typed by a primary-key type. -/
theorem C6_key_tables :
    (namesOfVariant catalog .primaryKey).length = 14 ∧
    (namesOfVariant catalog .primaryKey).map (keyTablesOf catalog) =
      [["locations_default"], ["files"], ["folders"], ["comment_groups"], ["comments"],
        ["exprs"], ["fields"], ["stmts"], ["decls"], ["specs"], ["types"], ["objects"],
        ["scopes"], ["packages"]] ∧
    (∀ p, p ∈ namesOfVariant catalog .primaryKey → (keyTablesOf catalog p).length = 1) ∧
    (∀ t, t ∈ tableDecls catalog → ∀ c, c ∈ t.columns → c.key = true →
      c.typeVar?.bind (variantOfVar catalog) = some .primaryKey) := by
  have h2 : (namesOfVariant catalog .primaryKey).map (keyTablesOf catalog) =
      [["locations_default"], ["files"], ["folders"], ["comment_groups"], ["comments"],
        ["exprs"], ["fields"], ["stmts"], ["decls"], ["specs"], ["types"], ["objects"],
        ["scopes"], ["packages"]] := by decide!
  refine ⟨by decide!, h2, ?_, by decide!⟩
  intro p hp
  have hmem : keyTablesOf catalog p ∈
      (namesOfVariant catalog .primaryKey).map (keyTablesOf catalog) :=
    List.mem_map_of_mem _ hp
  rw [h2] at hmem
  simp only [List.mem_cons, List.mem_singleton, List.not_mem_nil, or_false] at hmem
  rcases hmem with h | h | h | h | h | h | h | h | h | h | h | h | h | h <;> rw [h] <;> rfl

/-- C7: the base of each of the eight case types is a primary-key type, no two
case types share a base, and the table keyed by the base has a plain integer
column named like the discriminator column, `kind`. -/
theorem C7_case_types :
    (caseDecls catalog).map (fun c => (c.v, c.base, c.column)) =
      [("CommentKind", "CommentType", "kind"), ("ExprKind", "ExprType", "kind"),
        ("StmtKind", "StmtType", "kind"), ("DeclKind", "DeclType", "kind"),
        ("SpecKind", "SpecType", "kind"), ("ObjectKind", "ObjectType", "kind"),
        ("ScopeKind", "ScopeType", "kind"), ("TypeKind", "TypeType", "kind")] ∧
    ((caseDecls catalog).map CaseDecl.base).Nodup ∧
    (∀ c, c ∈ caseDecls catalog → variantOfVar catalog c.base = some .primaryKey) ∧
    (caseDecls catalog).map (fun c =>
        ((tableDecls catalog).filter (fun t => t.discriminates c.base c.column)).map
          TableDecl.name) =
      [["comments"], ["exprs"], ["stmts"], ["decls"], ["specs"], ["objects"], ["scopes"],
        ["types"]] := by
  refine ⟨by decide!, by decide!, by decide!, by decide!⟩

/-- C8: every table of the catalog has at most one `Key` column and no column
is both `Key` and `Unique`; building the catalog does not fail with
`ConflictingModifiers`. -/
theorem C8_no_conflicting_modifiers :
    (∀ t, t ∈ tableDecls catalog → t.keyColumns.length ≤ 1) ∧
    (∀ t, t ∈ tableDecls catalog → ∀ c, c ∈ t.columns → ¬ (c.key = true ∧ c.unique = true)) ∧
    (tableDecls catalog).length = 38 ∧
    (∀ n, build catalog ≠ .error (.ConflictingModifiers n)) :=
  ⟨by decide!, by decide!, by decide!, fun n => catalog_build_ne_error (.ConflictingModifiers n)⟩

/-- C9: the tables declaring a `KeySet` are `exprs`, `stmts`, `decls`, `specs`
and `component_types`; each `KeySet` is non-empty and names only columns of its
table; building the catalog does not fail with `InvalidKeySet`. -/
theorem C9_key_sets_valid :
    ((tableDecls catalog).filter (fun t => !t.keysets.isEmpty)).map
        (fun t => (t.name, t.keysets)) =
      [("exprs", [["parent", "idx"]]), ("stmts", [["parent", "idx"]]),
        ("decls", [["parent", "idx"]]), ("specs", [["parent", "idx"]]),
        ("component_types", [["parent", "index"]])] ∧
    (∀ t, t ∈ tableDecls catalog → ∀ ks, ks ∈ t.keysets →
      ks ≠ [] ∧ ∀ k, k ∈ ks → k ∈ t.columnNames) ∧
    (∀ n ks, build catalog ≠ .error (.InvalidKeySet n ks)) :=
  ⟨by decide!, by decide!, fun n ks => catalog_build_ne_error (.InvalidKeySet n ks)⟩

/-- C10: the names of the 38 tables declared through `NewTable` are pairwise
distinct and so are the column names within every table; building the catalog
does not fail with `DuplicateName`. -/
theorem C10_table_and_column_names_distinct :
    ((tableDecls catalog).map TableDecl.name).Nodup ∧
    (∀ t, t ∈ tableDecls catalog → t.columnNames.Nodup) ∧
    (∃ st, build catalog = .ok st) :=
  ⟨by decide!, by decide!, catalog_build_ok⟩

/-- C11: in every table of the catalog that has a `Key` column, that column is
the first column of the table and is named `id`; 14 tables have one. -/
theorem C11_key_column_first :
    (∀ t, t ∈ tableDecls catalog → ∀ c, c ∈ t.columns → c.key = true →
      t.columns.head? = some c ∧ c.columnName = "id") ∧
    ((tableDecls catalog).filter (fun t => !t.keyColumns.isEmpty)).length = 14 :=
  ⟨by decide!, by decide!⟩

/-- C12, as stated, fails: some union of the catalog has a branch member
declared before a non-branch member. -/
theorem C12_counterexample :
    ¬ (∀ u, u ∈ unionVars catalog → nonBranchFirst (membersOf catalog u) = true) := by
  intro h
  have h1 := h "ScopeNodeType" (by decide!)
  have h2 : nonBranchFirst (membersOf catalog "ScopeNodeType") = false := by decide!
  rw [h2] at h1
  cases h1

/-- C12, amended: in lexical order of the declarations, the direct members of
every union other than `@scopenode` and `@containertype` are the union and
primary-key members first and the branch members after them; in `@scopenode`
the unions `@switchstmt` and `@loopstmt`, and in `@containertype` the union
`@chantype`, are declared after branch members. -/
theorem C12_member_order :
    (∀ u, u ∈ unionVars catalog → u ≠ "ScopeNodeType" → u ≠ "ElementContainerType" →
      nonBranchFirst (membersOf catalog u) = true) ∧
    ["ScopeNodeType", "ElementContainerType"].map (nameOfVar catalog)
      = [some "@scopenode", some "@containertype"] ∧
    (membersOf catalog "ScopeNodeType").map (fun t => (t.name, t.variant)) =
      [("@file", .primaryKey), ("@functypeexpr", .branch), ("@blockstmt", .branch),
        ("@ifstmt", .branch), ("@caseclause", .branch), ("@switchstmt", .union),
        ("@commclause", .branch), ("@loopstmt", .union)] ∧
    (membersOf catalog "ElementContainerType").map (fun t => (t.name, t.variant)) =
      [("@arraytype", .branch), ("@slicetype", .branch), ("@maptype", .branch),
        ("@chantype", .union)] := by
  have hf : (unionVars catalog).filter (fun u => !nonBranchFirst (membersOf catalog u))
      = ["ScopeNodeType", "ElementContainerType"] := by decide!
  refine ⟨?_, by decide!, by decide!, by decide!⟩
  intro u hu h1 h2
  cases hb : nonBranchFirst (membersOf catalog u)
  · have hmem : u ∈ (unionVars catalog).filter
        (fun u => !nonBranchFirst (membersOf catalog u)) :=
      List.mem_filter.2 ⟨hu, by simp [hb]⟩
    rw [hf] at hmem
    simp only [List.mem_cons, List.mem_singleton, List.not_mem_nil, or_false] at hmem
    rcases hmem with h | h
    · exact absurd h h1
    · exact absurd h h2
  · rfl

/-- C13, as stated, fails: a relation of the default raw snippet has a name
with an upper-case letter. -/
theorem C13_counterexample :
    ¬ (∀ r, r ∈ (tableDecls catalog).map TableDecl.name ++ snippetRelations defaultSnippetText →
      lowerUnderscore r = true) := by
  intro h
  have h1 := h "duplicateCode" (List.mem_append_right _ (by decide!))
  revert h1
  decide

/-- C13, amended: the name of every table declared through `NewTable` consists
of lower-case letters and underscores only; the default raw snippet declares
the relations `duplicateCode`, `similarCode`, `tokens`, `externalData`,
`snapshotDate` and `sourceLocationPrefix`, of which only `tokens` does. -/
theorem C13_relation_names :
    (∀ t, t ∈ tableDecls catalog → lowerUnderscore t.name = true) ∧
    snippetRelations defaultSnippetText = ["duplicateCode", "similarCode", "tokens",
      "externalData", "snapshotDate", "sourceLocationPrefix"] ∧
    (snippetRelations defaultSnippetText).filter lowerUnderscore = ["tokens"] :=
  ⟨by decide!, by decide!, by decide!⟩

/-- C14: every build of the catalog emits one and the same text, so emitting
twice gives byte-identical output: the default raw snippet verbatim, then the
38 tables in the order of their declarations in the file, each rendered as one
block that declares exactly the relation of that name, then the union lines.
The text is given block by block in `emittedTables` and `emittedUnions`. -/
theorem C14_emission_deterministic :
    (∃ st, build catalog = .ok st) ∧
    (∀ st, build catalog = .ok st →
      st.schema.items.reverse = declaredItems catalog ∧
      st.schema.items.reverse.map (renderItem st.schema)
        = defaultSnippetText :: emittedTables ∧
      st.schema.unions.map (renderUnion st.schema) = emittedUnions ∧
      emit st.schema
        = String.join (defaultSnippetText :: emittedTables) ++ String.join emittedUnions) ∧
    (∀ st1 st2, build catalog = .ok st1 → build catalog = .ok st2 →
      emit st1.schema = emit st2.schema) ∧
    declaredItems catalog =
      .raw defaultSnippetText :: (tableDecls catalog).map (fun t => Item.table t.name) ∧
    emittedTables.length = 38 ∧
    emittedTables.map snippetRelations = (tableDecls catalog).map (fun t => [t.name]) := by
  have hall : ∀ st, build catalog = .ok st →
      st.schema.items.reverse = declaredItems catalog ∧
      st.schema.items.reverse.map (renderItem st.schema)
        = defaultSnippetText :: emittedTables ∧
      st.schema.unions.map (renderUnion st.schema) = emittedUnions ∧
      emit st.schema
        = String.join (defaultSnippetText :: emittedTables) ++ String.join emittedUnions := by
    intro st hst
    have h1 := catalog_build_summary
    have h2 := catalog_build_blocks
    rw [hst] at h1 h2
    simp only [summary, emittedBlocks, Option.some.injEq, Prod.mk.injEq] at h1 h2
    refine ⟨h1.2, h2.1, h2.2, ?_⟩
    unfold emit
    rw [h2.1, h2.2]
  refine ⟨catalog_build_ok, hall, ?_, by decide!, by decide!, by decide!⟩
  intro st1 st2 h1 h2
  rw [(hall st1 h1).2.2.2, (hall st2 h2).2.2.2]

/-- C16, at the failing input: `BasicTypes` maps `Uint`, `Uint8`, `Uint16`,
`Uint32` and `Uint64` to branches of `@unsignedintegertype`, which belong to
`@integertype` and `@numerictype`, but maps `Uintptr` to `@uintptrtype`, whose
only declared supertype is `@basictype`, so that it belongs to none of the
three unions. -/
theorem C16_uintptr_not_unsigned :
    unsignedKinds.map (fun k => (mapEntry? catalog "BasicTypes" k).map
        (fun c => (c.name, c.parents))) =
      [some ("@uinttype", ["UnsignedIntegerType"]), some ("@uint8type", ["UnsignedIntegerType"]),
        some ("@uint16type", ["UnsignedIntegerType"]),
        some ("@uint32type", ["UnsignedIntegerType"]),
        some ("@uint64type", ["UnsignedIntegerType"]), some ("@uintptrtype", ["BasicType"])] ∧
    (∀ b, b ∈ ["@uinttype", "@uint8type", "@uint16type", "@uint32type", "@uint64type"] →
      Member catalog b "@unsignedintegertype" ∧ Member catalog b "@integertype" ∧
      Member catalog b "@numerictype") ∧
    supersOf catalog "@uintptrtype" = ["@basictype"] ∧
    ¬ Member catalog "@uintptrtype" "@unsignedintegertype" ∧
    ¬ Member catalog "@uintptrtype" "@integertype" ∧
    ¬ Member catalog "@uintptrtype" "@numerictype" := by
  have hu : ∀ b, b ∈ ["@uinttype", "@uint8type", "@uint16type", "@uint32type", "@uint64type"] →
      supersOf catalog b = ["@unsignedintegertype"] := by decide!
  have h1 : supersOf catalog "@unsignedintegertype" = ["@integertype"] := by decide!
  have h2 : supersOf catalog "@integertype" = ["@numerictype"] := by decide!
  have h3 : supersOf catalog "@uintptrtype" = ["@basictype"] := by decide!
  have h4 : supersOf catalog "@basictype" = [] := by decide!
  have hUI : Member catalog "@unsignedintegertype" "@integertype" :=
    (member_via_single catalog _ _ _ h1).2 (Or.inl rfl)
  have hIN : Member catalog "@integertype" "@numerictype" :=
    (member_via_single catalog _ _ _ h2).2 (Or.inl rfl)
  have hno : ∀ x, x ≠ "@basictype" → ¬ Member catalog "@uintptrtype" x := by
    intro x hx hm
    rcases (member_via_single catalog _ _ _ h3).1 hm with h | h
    · exact hx h.symm
    · exact not_member_of_top catalog _ _ h4 h
  refine ⟨by decide!, ?_, h3, hno _ (by decide), hno _ (by decide), hno _ (by decide)⟩
  intro b hb
  have hbU : Member catalog b "@unsignedintegertype" :=
    (member_via_single catalog _ _ _ (hu b hb)).2 (Or.inl rfl)
  exact ⟨hbU, hbU.trans hUI, (hbU.trans hUI).trans hIN⟩

/-- C17, as stated, fails: a table with a `parent` entity column and an `idx`
column declares no `KeySet` over them. -/
theorem C17_counterexample :
    ¬ (∀ t, t ∈ tableDecls catalog → t.storesOrderedChildren = true →
      t.childKeySet ∈ t.keysets) := by
  decide!

/-- C17, amended: the tables with a `parent` entity column and an integer
column `idx` or `index` are `comments`, `exprs`, `fields`, `stmts`, `decls`,
`specs` and `component_types`; each of them other than `comments` and `fields`
declares exactly one `KeySet`, over exactly those two columns, and no other
table declares a `KeySet`. -/
theorem C17_ordered_children_keysets :
    ((tableDecls catalog).filter TableDecl.storesOrderedChildren).map TableDecl.name =
      ["comments", "exprs", "fields", "stmts", "decls", "specs", "component_types"] ∧
    (∀ t, t ∈ tableDecls catalog → t.storesOrderedChildren = true →
      t.name ≠ "comments" → t.name ≠ "fields" → t.keysets = [t.childKeySet]) ∧
    (∀ t, t ∈ tableDecls catalog → t.keysets ≠ [] → t.storesOrderedChildren = true) :=
  ⟨by decide!, by decide!, by decide!⟩

/-- C18: every branch stored in `UnaryExprs` belongs to `@unaryexpr`, every
branch stored in `BinaryExprs` belongs to `@binaryexpr`, no branch belongs to
both, and the branches that belong to `@operatorexpr` are exactly the 7 values
of `UnaryExprs` and the 19 values of `BinaryExprs`, although six unions reach
`@operatorexpr` along two paths. -/
theorem C18_operator_partition :
    (mapEntries catalog "UnaryExprs").length = 7 ∧
    (mapEntries catalog "BinaryExprs").length = 19 ∧
    (∀ b, b ∈ mapEntries catalog "UnaryExprs" → Member catalog b "@unaryexpr") ∧
    (∀ b, b ∈ mapEntries catalog "BinaryExprs" → Member catalog b "@binaryexpr") ∧
    (∀ b, b ∈ namesOfVariant catalog .branch →
      ¬ (Member catalog b "@unaryexpr" ∧ Member catalog b "@binaryexpr")) ∧
    (∀ b, b ∈ namesOfVariant catalog .branch →
      (Member catalog b "@operatorexpr" ↔
        b ∈ mapEntries catalog "UnaryExprs" ++ mapEntries catalog "BinaryExprs")) ∧
    ["@logicalunaryexpr", "@bitwiseunaryexpr", "@arithmeticunaryexpr", "@logicalbinaryexpr",
        "@bitwisebinaryexpr", "@arithmeticbinaryexpr", "@unaryexpr", "@binaryexpr",
        "@logicalexpr", "@bitwiseexpr", "@arithmeticexpr"].map (supersOf catalog) =
      [["@unaryexpr", "@logicalexpr"], ["@unaryexpr", "@bitwiseexpr"],
        ["@unaryexpr", "@arithmeticexpr"], ["@binaryexpr", "@logicalexpr"],
        ["@binaryexpr", "@bitwiseexpr"], ["@binaryexpr", "@arithmeticexpr"],
        ["@operatorexpr"], ["@operatorexpr"], ["@operatorexpr"], ["@operatorexpr"],
        ["@operatorexpr"]] := by
  have hU : mapEntries catalog "UnaryExprs" = belowUnaryExpr.drop 4 := by decide!
  have hB : mapEntries catalog "BinaryExprs" = belowBinaryExpr.drop 8 := by decide!
  have hchk : (namesOfVariant catalog .branch).all (fun b =>
      !sameName b "@operatorexpr" && !sameName b "@unaryexpr" && !sameName b "@binaryexpr" &&
      !(hasName belowUnaryExpr b && hasName belowBinaryExpr b) &&
      (hasName belowOperatorExpr b ==
        hasName (belowUnaryExpr.drop 4 ++ belowBinaryExpr.drop 8) b)) = true := by decide!
  have hfacts : ∀ b, b ∈ namesOfVariant catalog .branch →
      (Member catalog b "@operatorexpr" ↔ b ∈ belowOperatorExpr) ∧
      (Member catalog b "@unaryexpr" ↔ b ∈ belowUnaryExpr) ∧
      (Member catalog b "@binaryexpr" ↔ b ∈ belowBinaryExpr) ∧
      ¬ (b ∈ belowUnaryExpr ∧ b ∈ belowBinaryExpr) ∧
      (b ∈ belowOperatorExpr ↔ b ∈ belowUnaryExpr.drop 4 ++ belowBinaryExpr.drop 8) := by
    intro b hb
    have h := List.all_eq_true.1 hchk b hb
    simp only [Bool.and_eq_true, Bool.not_eq_true', beq_iff_eq] at h
    obtain ⟨⟨⟨⟨h1, h2⟩, h3⟩, h4⟩, h5⟩ := h
    refine ⟨member_of_below (below_operatorExpr b) (sameName_false h1),
      member_of_below (below_unaryExpr b) (sameName_false h2),
      member_of_below (below_binaryExpr b) (sameName_false h3), ?_, hasName_congr h5⟩
    rintro ⟨hu, hbin⟩
    rw [(hasName_iff _ _).2 hu, (hasName_iff _ _).2 hbin] at h4
    cases h4
  have hUb : ∀ b, b ∈ belowUnaryExpr.drop 4 → b ∈ namesOfVariant catalog .branch := by
    decide!
  have hBb : ∀ b, b ∈ belowBinaryExpr.drop 8 → b ∈ namesOfVariant catalog .branch := by
    decide!
  refine ⟨by rw [hU]; rfl, by rw [hB]; rfl, ?_, ?_, ?_, ?_, by decide!⟩
  · intro b hb
    rw [hU] at hb
    exact (hfacts b (hUb b hb)).2.1.2 (List.mem_of_mem_drop hb)
  · intro b hb
    rw [hB] at hb
    exact (hfacts b (hBb b hb)).2.2.1.2 (List.mem_of_mem_drop hb)
  · intro b hb h
    obtain ⟨-, h2, h3, h4, -⟩ := hfacts b hb
    exact h4 ⟨h2.1 h.1, h3.1 h.2⟩
  · intro b hb
    obtain ⟨h1, -, -, -, h5⟩ := hfacts b hb
    rw [hU, hB]
    exact h1.trans h5

/-- C19: every branch of `TypeKind` belongs to exactly one of `@basictype` and
`@compositetype`, and the branches belonging to `@basictype` are exactly the 26
values of the `BasicTypes` map. -/
theorem C19_basic_or_composite :
    (branchesOf catalog "TypeKind").length = 38 ∧
    (mapEntries catalog "BasicTypes").length = 26 ∧
    (∀ b, b ∈ branchesOf catalog "TypeKind" →
      (Member catalog b "@basictype" ∧ ¬ Member catalog b "@compositetype") ∨
      (¬ Member catalog b "@basictype" ∧ Member catalog b "@compositetype")) ∧
    (∀ b, b ∈ branchesOf catalog "TypeKind" →
      (Member catalog b "@basictype" ↔ b ∈ mapEntries catalog "BasicTypes")) := by
  have hM : mapEntries catalog "BasicTypes" = belowBasicType.drop 10 := by decide!
  have hchk : (branchesOf catalog "TypeKind").all (fun b =>
      !sameName b "@basictype" && !sameName b "@compositetype" &&
      (hasName belowBasicType b != hasName belowCompositeType b) &&
      (hasName belowBasicType b == hasName (belowBasicType.drop 10) b)) = true := by decide!
  have hfacts : ∀ b, b ∈ branchesOf catalog "TypeKind" →
      (Member catalog b "@basictype" ↔ b ∈ belowBasicType) ∧
      (Member catalog b "@compositetype" ↔ b ∈ belowCompositeType) ∧
      hasName belowBasicType b ≠ hasName belowCompositeType b ∧
      (b ∈ belowBasicType ↔ b ∈ belowBasicType.drop 10) := by
    intro b hb
    have h := List.all_eq_true.1 hchk b hb
    simp only [Bool.and_eq_true, Bool.not_eq_true', beq_iff_eq, bne_iff_ne] at h
    obtain ⟨⟨⟨h1, h2⟩, h3⟩, h4⟩ := h
    exact ⟨member_of_below (below_basicType b) (sameName_false h1),
      member_of_below (below_compositeType b) (sameName_false h2), h3, hasName_congr h4⟩
  refine ⟨by decide!, by rw [hM]; rfl, ?_, ?_⟩
  · intro b hb
    obtain ⟨h1, h2, h3, -⟩ := hfacts b hb
    rw [h1, h2, ← hasName_iff, ← hasName_iff]
    cases hx : hasName belowBasicType b <;> cases hy : hasName belowCompositeType b <;>
      simp_all
  · intro b hb
    obtain ⟨h1, -, -, h4⟩ := hfacts b hb
    rw [hM]
    exact h1.trans h4

/-- C20: the four unions whose doc comment lists their members have exactly
those direct members: `@container` has `@file` and `@folder`, `@funcdef` has
`@funclit` and `@funcdecl`, `@switchstmt` has `@exprswitchstmt` and
`@typeswitchstmt`, `@loopstmt` has `@forstmt` and `@rangestmt`. -/
theorem C20_documented_members :
    (∀ m, IsSuper catalog m "@container" ↔ m ∈ ["@file", "@folder"]) ∧
    (∀ m, IsSuper catalog m "@funcdef" ↔ m ∈ ["@funclit", "@funcdecl"]) ∧
    (∀ m, IsSuper catalog m "@switchstmt" ↔ m ∈ ["@exprswitchstmt", "@typeswitchstmt"]) ∧
    (∀ m, IsSuper catalog m "@loopstmt" ↔ m ∈ ["@forstmt", "@rangestmt"]) := by
  have h1 : ((typeDecls catalog).filter (hasSuperIn catalog ["@container"])).map TypeDecl.name
      = ["@file", "@folder"] := by decide!
  have h2 : ((typeDecls catalog).filter (hasSuperIn catalog ["@funcdef"])).map TypeDecl.name
      = ["@funclit", "@funcdecl"] := by decide!
  have h3 : ((typeDecls catalog).filter (hasSuperIn catalog ["@switchstmt"])).map TypeDecl.name
      = ["@exprswitchstmt", "@typeswitchstmt"] := by decide!
  have h4 : ((typeDecls catalog).filter (hasSuperIn catalog ["@loopstmt"])).map TypeDecl.name
      = ["@forstmt", "@rangestmt"] := by decide!
  refine ⟨fun m => ?_, fun m => ?_, fun m => ?_, fun m => ?_⟩
  · rw [isSuper_iff_mem_filter, h1]
  · rw [isSuper_iff_mem_filter, h2]
  · rw [isSuper_iff_mem_filter, h3]
  · rw [isSuper_iff_mem_filter, h4]

/-- C21: each of the 56 unions declared in the catalog is named as a supertype
by at least one declared type, the list of its direct members has no
repetition, and no declaration names the same supertype twice. -/
theorem C21_unions_have_members :
    (namesOfVariant catalog .union).length = 56 ∧
    (∀ u, u ∈ namesOfVariant catalog .union → directMembers catalog u ≠ []) ∧
    (∀ u, (directMembers catalog u).Nodup) ∧
    (∀ t, t ∈ typeDecls catalog → t.parents.Nodup) ∧
    (∀ u m, m ∈ directMembers catalog u ↔ IsSuper catalog m u) := by
  have hchk : (typeDecls catalog).all
      (fun t => !(t.variant = .union) || isNamedAsSuper catalog t) = true := by decide!
  refine ⟨by decide!, ?_, directMembers_nodup catalog catalog_typeNames_nodup, by decide!,
    mem_directMembers catalog⟩
  intro u hu
  unfold namesOfVariant at hu
  obtain ⟨t, ht, rfl⟩ := List.mem_map.1 hu
  obtain ⟨ht1, ht2⟩ := List.mem_filter.1 ht
  have h := List.all_eq_true.1 hchk t ht1
  rw [ht2] at h
  simp only [Bool.not_true, Bool.false_or] at h
  obtain ⟨m, hm⟩ := isNamedAsSuper_spec catalog t h
  intro hnil
  have hmem := (mem_directMembers catalog t.name m).2 hm
  rw [hnil] at hmem
  cases hmem

/-- C22: the type names of the default raw snippet (`@duplication`,
`@similarity`, `@duplication_or_similarity`, `@externalDataElement`) are not
names of declared types, its relation names are not names of tables declared
through `NewTable`, and the one type it references with `ref`,
`@duplication_or_similarity`, is defined inside the snippet. -/
theorem C22_snippet_names_disjoint :
    typeOccurrences none defaultSnippetText.data =
      [("@duplication", .defined), ("@similarity", .defined),
        ("@duplication_or_similarity", .defined), ("@duplication", .used),
        ("@similarity", .used), ("@duplication_or_similarity", .referenced),
        ("@externalDataElement", .defined)] ∧
    (∀ o, o ∈ typeOccurrences none defaultSnippetText.data → o.1 ∉ typeNames catalog) ∧
    snippetRelations defaultSnippetText = ["duplicateCode", "similarCode", "tokens",
      "externalData", "snapshotDate", "sourceLocationPrefix"] ∧
    (∀ r, r ∈ snippetRelations defaultSnippetText →
      r ∉ (tableDecls catalog).map TableDecl.name) ∧
    typesWithRole defaultSnippetText .referenced = ["@duplication_or_similarity"] ∧
    (∀ n, n ∈ typesWithRole defaultSnippetText .referenced →
      n ∈ typesWithRole defaultSnippetText .defined) ∧
    (∀ n, n ∈ typesWithRole defaultSnippetText .used →
      n ∈ typesWithRole defaultSnippetText .defined) := by
  have hT : (typeOccurrences none defaultSnippetText.data).all
      (fun o => !hasName (typeNames catalog) o.1) = true := by decide!
  have hR : (snippetRelations defaultSnippetText).all
      (fun r => !hasName ((tableDecls catalog).map TableDecl.name) r) = true := by decide!
  refine ⟨by decide!, ?_, by decide!, ?_, by decide!, by decide!, by decide!⟩
  · intro o ho
    have h := List.all_eq_true.1 hT o ho
    rw [Bool.not_eq_true'] at h
    exact hasName_false h
  · intro r hr
    have h := List.all_eq_true.1 hR r hr
    rw [Bool.not_eq_true'] at h
    exact hasName_false h

/-- C23: the 26 entries of `BasicTypes` are the first branches declared on
`TypeKind` and are listed in ascending order of their `BasicKind` keys without
gaps, so the tag of each entry, its position among the `NewBranch` calls on
`TypeKind`, equals the numeric value of its key, from `Invalid` = 0 to
`UntypedNil` = 25. -/
theorem C23_basic_kind_tags :
    (mapPairs catalog "BasicTypes").length = 26 ∧
    (mapPairs catalog "BasicTypes").map (fun p => basicKindValue p.1)
      = (List.range 26).map some ∧
    (branchesOf catalog "TypeKind").take 26 = (mapPairs catalog "BasicTypes").map Prod.snd ∧
    (mapPairs catalog "BasicTypes").map (fun p => (p.2, basicKindValue p.1)) =
      ((positionalTags catalog "TypeKind").take 26).map (fun p => (p.1, some p.2)) ∧
    (∃ t, tagTable (build catalog) = some t ∧
      t.getLast? = some (positionalTags catalog "TypeKind")) :=
  ⟨by decide!, by decide!, by decide!, by decide!,
    ⟨_, catalog_build_tags, by decide!⟩⟩

end Dbscheme
